/-
  Verification of the moomoo-like pattern-detection and scoring engine.

  Shallow embedding of the Python sources:
    app/backend/box_detector.py   (Bar, _to_bars, detect_boxes)
    app/backend/ingest_txt.py     (_build_ma_series, _count_streak, _pct_change,
                                   _compute_volume_ratio, _detect_body_box,
                                   compute_stage_score)
    app/backend/main.py           (_build_ma_series, _count_streak — identical
                                   copies of the ingest_txt ones; _normalize_*_rows,
                                   _compute_atr, _compute_volume_ratio, _calc_slope,
                                   _calc_recent_bounds, _detect_body_box (config),
                                   _score_weekly_candidate, _score_monthly_candidate)

  Conventions of the embedding:
  - Python floats are modelled as ℚ (the algorithms only add, subtract,
    multiply, divide and compare; no float-rounding behaviour is relied on
    by any property below).
  - Python `None` becomes `Option`.  Code paths that raise an exception
    (float(None), max() of an empty window when min_bars <= 0) are modelled
    by an `Option`-returning wrapper whose `none` means "raises".
  - Python's stable list sort (`list.sort(key=...)`) is modelled by a stable
    insertion sort `sortByKey` (stable sorts agree on their output).
  - Python attribute/field `open` is spelled `open_` (Lean keyword); dict
    rows become structures whose fields are the tuple slots the code reads.
-/
import Mathlib

/-! ## Shared helpers -/

/-- Python `max(seq)` over a nonempty list of rationals (the sources only
call it on nonempty windows; on `[]` we return the junk value `0`, a case
that is unreachable in every guarded call site below). -/
def listMax (l : List ℚ) : ℚ := l.foldl max (l.headD 0)

/-- Python `min(seq)` over a nonempty list of rationals. -/
def listMin (l : List ℚ) : ℚ := l.foldl min (l.headD 0)

/-- Stable insertion of `b` after all entries whose key is `≤ key b`. -/
def insertByKey {α : Type} (key : α → Int) (b : α) : List α → List α
  | [] => [b]
  | x :: xs => if key x ≤ key b then x :: insertByKey key b xs else b :: x :: xs

/-- Python's stable ascending sort by an integer key. -/
def sortByKey {α : Type} (key : α → Int) (l : List α) : List α :=
  l.foldl (fun acc b => insertByKey key b acc) []

/-- The literal `1e-9` used as a division-by-zero guard. -/
def epsBase : ℚ := 1 / 1000000000

/-- Python `round(x, 3)`.  (CPython rounds half-to-even on the binary float;
every score rounded below is an integer, where the two conventions agree.) -/
def round3 (q : ℚ) : ℚ := ((round (q * 1000) : ℤ) : ℚ) / 1000

namespace BoxDetector

/-- `Bar` dataclass of box_detector.py. -/
structure Bar where
  time : Int
  open_ : ℚ
  high : ℚ
  low : ℚ
  close : ℚ
deriving DecidableEq, Repr

/-- An input row: the first five tuple slots read by `_to_bars`.
A Python row shorter than 5 is modelled by leaving `time` (or any other
checked slot) as `none` — both are skipped identically. -/
structure Row where
  time : Option Int
  open_ : Option ℚ
  high : Option ℚ
  low : Option ℚ
  close : Option ℚ
deriving DecidableEq, Repr

/-- Conversion pass of `_to_bars` before sorting: rows with `time`, `high`,
`low` or `close` missing are skipped; a row passing that check but with
`open` missing makes `float(None)` raise — modelled as `none`. -/
def collectBars : List Row → Option (List Bar)
  | [] => some []
  | r :: rest =>
    if r.time = none ∨ r.high = none ∨ r.low = none ∨ r.close = none then
      collectBars rest
    else
      match r.open_ with
      | some o =>
        (collectBars rest).map
          (fun bs => Bar.mk (r.time.getD 0) o (r.high.getD 0) (r.low.getD 0) (r.close.getD 0) :: bs)
      | none => none

/-- `_to_bars`: convert then stable-sort by `time`. -/
def _to_bars (rows : List Row) : Option (List Bar) :=
  (collectBars rows).map (sortByKey (·.time))

/-- Keyword parameters of `detect_boxes`.  The integer parameters are taken
as naturals (the defaults are `3, 24, 2, 1`). -/
structure Params where
  min_bars : ℕ := 3
  max_bars : ℕ := 24
  max_range_pct : ℚ := 18 / 100
  rescue_bars : ℕ := 2
  rescue_hits_per_side : ℕ := 1
  breakout_buffer : ℚ := 5 / 1000
deriving DecidableEq, Repr

/-- A returned box dict. -/
structure Box where
  startIndex : ℕ
  endIndex : ℕ
  startTime : Int
  endTime : Int
  lower : ℚ
  upper : ℚ
  breakout : Option Bool  -- some true = "up", some false = "down"
deriving DecidableEq, Repr

def defaultBar : Bar := ⟨0, 0, 0, 0, 0⟩

/-- `upper` of the initial `min_bars` window starting at `start`. -/
def initUpper (p : Params) (bars : List Bar) (start : ℕ) : ℚ :=
  listMax (((bars.drop start).take p.min_bars).map (·.high))

/-- `lower` of the initial `min_bars` window starting at `start`. -/
def initLower (p : Params) (bars : List Bar) (start : ℕ) : ℚ :=
  listMin (((bars.drop start).take p.min_bars).map (·.low))

/-- Mutable state of the window-extension `for` loop. -/
structure ExtState where
  upper : ℚ
  lower : ℚ
  endIdx : ℕ
  rescue_up : ℕ
  rescue_down : ℕ
deriving DecidableEq, Repr

/-- One-for-one translation of the extension loop body (lines 68–91 of
box_detector.py), walking the precomputed cursor list; returning without
recursing models `break`. -/
def extendGo (p : Params) (bars : List Bar) (start : ℕ) :
    List ℕ → ExtState → ExtState
  | [], st => st
  | cursor :: rest, st =>
    let bar := bars.getD cursor defaultBar
    if st.upper < bar.high ∨ bar.low < st.lower then
      if cursor - start ≤ p.rescue_bars then
        if st.upper < bar.high ∧ st.rescue_up < p.rescue_hits_per_side then
          let st' : ExtState :=
            { st with rescue_up := st.rescue_up + 1, upper := max st.upper bar.high }
          if p.max_range_pct < (st'.upper - st'.lower) / max |st'.lower| epsBase then st'
          else extendGo p bars start rest { st' with endIdx := cursor }
        else if bar.low < st.lower ∧ st.rescue_down < p.rescue_hits_per_side then
          let st' : ExtState :=
            { st with rescue_down := st.rescue_down + 1, lower := min st.lower bar.low }
          if p.max_range_pct < (st'.upper - st'.lower) / max |st'.lower| epsBase then st'
          else extendGo p bars start rest { st' with endIdx := cursor }
        else st
      else st
    else
      let st' : ExtState :=
        { st with upper := max st.upper bar.high, lower := min st.lower bar.low }
      if p.max_range_pct < (st'.upper - st'.lower) / max |st'.lower| epsBase then st'
      else extendGo p bars start rest { st' with endIdx := cursor }

/-- The cursor range `range(end + 1, min(last, start + max_bars))` of the
extension loop. -/
def extCursors (p : Params) (bars : List Bar) (start : ℕ) : List ℕ :=
  List.range' (start + p.min_bars) (min bars.length (start + p.max_bars) - (start + p.min_bars))

/-- The extension-loop state a candidate at `start` ends in. -/
def candidateState (p : Params) (bars : List Bar) (start : ℕ) : ExtState :=
  extendGo p bars start (extCursors p bars start)
    ⟨initUpper p bars start, initLower p bars start, start + p.min_bars - 1, 0, 0⟩

/-- Breakout detection (lines 97–105): first close beyond the buffered
bounds, scanning the bars strictly after the window. -/
def breakoutScan (upper lower buffer : ℚ) : List Bar → Option Bool
  | [] => none
  | bar :: rest =>
    if upper * (1 + buffer) ≤ bar.close then some true
    else if bar.close ≤ lower * (1 - buffer) then some false
    else breakoutScan upper lower buffer rest

/-- One iteration of the outer `while` loop at `start`: `none` models
"reject, advance by 1"; `some box` models "emit, resume at endIndex+1". -/
def candidate (p : Params) (bars : List Bar) (start : ℕ) : Option Box :=
  let upper0 := initUpper p bars start
  let lower0 := initLower p bars start
  if p.max_range_pct < (upper0 - lower0) / max |lower0| epsBase then none
  else
    let st := candidateState p bars start
    if st.endIdx - start + 1 < p.min_bars then none
    else
      some
        { startIndex := start
          endIndex := st.endIdx
          startTime := (bars.getD start defaultBar).time
          endTime := (bars.getD st.endIdx defaultBar).time
          lower := st.lower
          upper := st.upper
          breakout := breakoutScan st.upper st.lower p.breakout_buffer (bars.drop (st.endIdx + 1)) }

/-- The outer `while index <= last - min_bars` loop.  `fuel` only bounds the
number of iterations: since every iteration advances `index` by at least one
(for `min_bars ≥ 1`) and the loop runs only while `index ≤ bars.length -
min_bars`, the initial fuel `bars.length + 1` is never exhausted. -/
def detectLoop (p : Params) (bars : List Bar) : ℕ → ℕ → List Box
  | 0, _ => []
  | fuel + 1, index =>
    if index + p.min_bars ≤ bars.length then
      match candidate p bars index with
      | none => detectLoop p bars fuel (index + 1)
      | some box => box :: detectLoop p bars fuel (box.endIndex + 1)
    else []

/-- `detect_boxes` on an already-converted bar list.  min_bars = 0 models
Python `min_bars <= 0`, where the first iteration evaluates `max()` over an
empty slice and raises ValueError (`none`). -/
def detectBoxesOnBars (p : Params) (bars : List Bar) : Option (List Box) :=
  if p.min_bars = 0 then none
  else if bars.length < p.min_bars then some []
  else some (detectLoop p bars (bars.length + 1) 0)

/-- `detect_boxes(rows, **params)`. -/
def detect_boxes (rows : List Row) (p : Params) : Option (List Box) :=
  (_to_bars rows).bind (detectBoxesOnBars p)

end BoxDetector

namespace BoxDetector

/-- A fully populated five-slot row. -/
def mkRow (t : Int) (o h l c : ℚ) : Row := ⟨some t, some o, some h, some l, some c⟩

/-! ### Lemmas about the sort / conversion layer -/

theorem mem_insertByKey {α : Type} (key : α → Int) (b x : α) :
    ∀ l : List α, x ∈ insertByKey key b l ↔ x = b ∨ x ∈ l := by
  intro l
  induction l with
  | nil => simp [insertByKey]
  | cons h t ih =>
    simp only [insertByKey]
    split
    · simp only [List.mem_cons, ih]
      tauto
    · simp only [List.mem_cons]

theorem mem_sortByKey_aux {α : Type} (key : α → Int) (x : α) :
    ∀ (l acc : List α),
      (x ∈ l.foldl (fun acc b => insertByKey key b acc) acc ↔ x ∈ acc ∨ x ∈ l) := by
  intro l
  induction l with
  | nil => simp
  | cons h t ih =>
    intro acc
    simp only [List.foldl_cons, ih, mem_insertByKey, List.mem_cons]
    tauto

theorem mem_sortByKey {α : Type} (key : α → Int) (x : α) (l : List α) :
    x ∈ sortByKey key l ↔ x ∈ l := by
  simp [sortByKey, mem_sortByKey_aux]

theorem collectBars_mem :
    ∀ (rows : List Row) (bs : List Bar), collectBars rows = some bs →
      ∀ b ∈ bs, ∃ r ∈ rows, r.low = some b.low ∧ r.high = some b.high := by
  intro rows
  induction rows with
  | nil =>
    intro bs hbs b hb
    simp only [collectBars] at hbs
    cases hbs
    simp at hb
  | cons r rest ih =>
    intro bs hbs b hb
    simp only [collectBars] at hbs
    split at hbs
    · obtain ⟨r', hr', h1, h2⟩ := ih bs hbs b hb
      exact ⟨r', List.mem_cons_of_mem _ hr', h1, h2⟩
    · rename_i hnone
      push_neg at hnone
      rcases ho : r.open_ with _ | o
      · rw [ho] at hbs
        exact absurd hbs (by simp)
      · rw [ho, Option.map_eq_some'] at hbs
        obtain ⟨bs', hbs', rfl⟩ := hbs
        rcases List.mem_cons.mp hb with rfl | hb'
        · refine ⟨r, List.mem_cons_self _ _, ?_, ?_⟩
          · rcases hl : r.low with _ | lo
            · exact absurd hl hnone.2.2.1
            · simp [hl]
          · rcases hh : r.high with _ | hi
            · exact absurd hh hnone.2.1
            · simp [hh]
        · obtain ⟨r', hr', h1, h2⟩ := ih bs' hbs' b hb'
          exact ⟨r', List.mem_cons_of_mem _ hr', h1, h2⟩

theorem to_bars_wf (rows : List Row) (bars : List Bar)
    (hdet : _to_bars rows = some bars)
    (hwf : ∀ r ∈ rows, ∀ lo hi, r.low = some lo → r.high = some hi → lo ≤ hi) :
    ∀ b ∈ bars, b.low ≤ b.high := by
  intro b hb
  simp only [_to_bars, Option.map_eq_some'] at hdet
  obtain ⟨bs, hbs, rfl⟩ := hdet
  rw [mem_sortByKey] at hb
  obtain ⟨r, hr, h1, h2⟩ := collectBars_mem rows bs hbs b hb
  exact hwf r hr _ _ h1 h2

/-! ### listMax / listMin bounds -/

theorem foldl_max_le_init (b : ℚ) : ∀ l : List ℚ, b ≤ l.foldl max b := by
  intro l
  induction l generalizing b with
  | nil => simp
  | cons h t ih => exact le_trans (le_max_left b h) (ih (max b h))

theorem mem_le_foldl_max (x b : ℚ) : ∀ l : List ℚ, x ∈ l → x ≤ l.foldl max b := by
  intro l
  induction l generalizing b with
  | nil => simp
  | cons h t ih =>
    intro hx
    rcases List.mem_cons.mp hx with rfl | hx'
    · exact le_trans (le_max_right b x) (foldl_max_le_init _ t)
    · exact ih (max b h) hx'

theorem le_listMax (x : ℚ) (l : List ℚ) (hx : x ∈ l) : x ≤ listMax l :=
  mem_le_foldl_max x (l.headD 0) l hx

theorem init_le_foldl_min (b : ℚ) : ∀ l : List ℚ, l.foldl min b ≤ b := by
  intro l
  induction l generalizing b with
  | nil => simp
  | cons h t ih => exact le_trans (ih (min b h)) (min_le_left b h)

theorem foldl_min_le_mem (x b : ℚ) : ∀ l : List ℚ, x ∈ l → l.foldl min b ≤ x := by
  intro l
  induction l generalizing b with
  | nil => simp
  | cons h t ih =>
    intro hx
    rcases List.mem_cons.mp hx with rfl | hx'
    · exact le_trans (init_le_foldl_min _ t) (min_le_right b x)
    · exact ih (min b h) hx'

theorem listMin_le (x : ℚ) (l : List ℚ) (hx : x ∈ l) : listMin l ≤ x :=
  foldl_min_le_mem x (l.headD 0) l hx

/-! ### Extension-loop invariants -/

/-- Transport for the endIdx invariant through one `cons` step: the
recursive call always carries `endIdx := c`. -/
theorem endIdx_step (p : Params) (bars : List Bar) (start c : ℕ) (rest : List ℕ)
    (st st'' : ExtState) (hst : st''.endIdx = c)
    (h : (extendGo p bars start rest st'').endIdx = st''.endIdx ∨
         (extendGo p bars start rest st'').endIdx ∈ rest) :
    (extendGo p bars start rest st'').endIdx = st.endIdx ∨
    (extendGo p bars start rest st'').endIdx ∈ c :: rest := by
  rcases h with h | h
  · right; rw [h, hst]; exact List.mem_cons_self _ _
  · right; exact List.mem_cons_of_mem _ h

/-- The window end either stays at its initial value or is one of the
scanned cursors. -/
theorem extendGo_endIdx_mem (p : Params) (bars : List Bar) (start : ℕ) :
    ∀ (cursors : List ℕ) (st : ExtState),
      (extendGo p bars start cursors st).endIdx = st.endIdx ∨
      (extendGo p bars start cursors st).endIdx ∈ cursors := by
  intro cursors
  induction cursors with
  | nil => intro st; left; rfl
  | cons c rest ih =>
    intro st
    simp only [extendGo]
    split
    · split
      · split
        · split
          · left; rfl
          · exact endIdx_step p bars start c rest st _ rfl (ih _)
        · split
          · split
            · left; rfl
            · exact endIdx_step p bars start c rest st _ rfl (ih _)
          · left; rfl
      · left; rfl
    · split
      · left; rfl
      · exact endIdx_step p bars start c rest st _ rfl (ih _)

/-- `lower ≤ upper` is preserved by the extension loop (every update is a
`max` on the upper bound or a `min` on the lower bound). -/
theorem extendGo_wf (p : Params) (bars : List Bar) (start : ℕ) :
    ∀ (cursors : List ℕ) (st : ExtState), st.lower ≤ st.upper →
      (extendGo p bars start cursors st).lower ≤ (extendGo p bars start cursors st).upper := by
  intro cursors
  induction cursors with
  | nil => intro st h; exact h
  | cons c rest ih =>
    intro st h
    simp only [extendGo]
    split
    · split
      · split
        · split
          · exact le_trans h (le_max_left _ _)
          · exact ih _ (le_trans h (le_max_left _ _))
        · split
          · split
            · exact le_trans (min_le_left _ _) h
            · exact ih _ (le_trans (min_le_left _ _) h)
          · exact h
      · exact h
    · split
      · exact le_trans (min_le_left _ _) (le_trans h (le_max_left _ _))
      · exact ih _ (le_trans (min_le_left _ _) (le_trans h (le_max_left _ _)))

/-- With `rescue_bars < min_bars` every scanned cursor sits at offset
`≥ min_bars` from the window start, so the rescue branch can never fire:
bounds and both rescue budgets come out of the loop untouched. -/
theorem extendGo_norescue (p : Params) (bars : List Bar) (start : ℕ)
    (hr : p.rescue_bars < p.min_bars) :
    ∀ (cursors : List ℕ) (st : ExtState), (∀ c ∈ cursors, start + p.min_bars ≤ c) →
      (extendGo p bars start cursors st).upper = st.upper ∧
      (extendGo p bars start cursors st).lower = st.lower ∧
      (extendGo p bars start cursors st).rescue_up = st.rescue_up ∧
      (extendGo p bars start cursors st).rescue_down = st.rescue_down := by
  intro cursors
  induction cursors with
  | nil => intro st _; simp [extendGo]
  | cons c rest ih =>
    intro st hc
    have hcs : start + p.min_bars ≤ c := hc c (List.mem_cons_self _ _)
    have hno : ¬ (c - start ≤ p.rescue_bars) := by omega
    simp only [extendGo]
    split
    · exact ⟨rfl, rfl, rfl, rfl⟩
    · rename_i hout
      have hupper : max st.upper (bars.getD c defaultBar).high = st.upper :=
        max_eq_left (le_of_not_lt fun h => hout (Or.inl h))
      have hlower : min st.lower (bars.getD c defaultBar).low = st.lower :=
        min_eq_left (le_of_not_lt fun h => hout (Or.inr h))
      split
      · exact ⟨hupper, hlower, rfl, rfl⟩
      · have hstate : ExtState.mk (max st.upper (bars.getD c defaultBar).high)
            (min st.lower (bars.getD c defaultBar).low) c st.rescue_up st.rescue_down
            = ExtState.mk st.upper st.lower c st.rescue_up st.rescue_down := by
          rw [hupper, hlower]
        rw [hstate]
        exact ih _ (fun c' hc' => hc c' (List.mem_cons_of_mem _ hc'))

/-- A bar breaking out of the current bounds at offset `≥ min_bars`
terminates the scan immediately, leaving the state untouched. -/
theorem extendGo_break_terminates (p : Params) (bars : List Bar) (start : ℕ)
    (hr : p.rescue_bars < p.min_bars) (c : ℕ) (rest : List ℕ) (st : ExtState)
    (hcs : start + p.min_bars ≤ c)
    (hout : st.upper < (bars.getD c defaultBar).high ∨ (bars.getD c defaultBar).low < st.lower) :
    extendGo p bars start (c :: rest) st = st := by
  have hno : ¬ (c - start ≤ p.rescue_bars) := by omega
  simp only [extendGo, if_pos hout, if_neg hno]

end BoxDetector


namespace BoxDetector

/-! ### Candidate / outer-loop lemmas -/

/-- What `some b` from `candidate` pins down: the box carries the final
extension state and passed both guards. -/
theorem candidate_eq (p : Params) (bars : List Bar) (s : ℕ) (b : Box)
    (h : candidate p bars s = some b) :
    b.startIndex = s ∧ b.endIndex = (candidateState p bars s).endIdx ∧
    b.upper = (candidateState p bars s).upper ∧
    b.lower = (candidateState p bars s).lower ∧
    ¬ (p.max_range_pct <
        (initUpper p bars s - initLower p bars s) / max |initLower p bars s| epsBase) ∧
    p.min_bars ≤ (candidateState p bars s).endIdx - s + 1 := by
  simp only [candidate] at h
  split at h
  · simp at h
  · rename_i hguard
    split at h
    · simp at h
    · rename_i hcount
      rw [Option.some.injEq] at h
      subst h
      exact ⟨rfl, rfl, rfl, rfl, hguard, by omega⟩

theorem mem_extCursors (p : Params) (bars : List Bar) (s c : ℕ)
    (h : c ∈ extCursors p bars s) :
    s + p.min_bars ≤ c ∧ c < min bars.length (s + p.max_bars) := by
  simp only [extCursors, List.mem_range'_1] at h
  omega

theorem candidateState_start_le (p : Params) (bars : List Bar) (s : ℕ)
    (hmin : 1 ≤ p.min_bars) : s ≤ (candidateState p bars s).endIdx := by
  simp only [candidateState]
  rcases extendGo_endIdx_mem p bars s (extCursors p bars s)
      ⟨initUpper p bars s, initLower p bars s, s + p.min_bars - 1, 0, 0⟩ with h | h
  · rw [h]
    show s ≤ s + p.min_bars - 1
    omega
  · have := (mem_extCursors p bars s _ h).1
    omega

/-- With all bars well-formed (low ≤ high) the initial window has
`lower ≤ upper`. -/
theorem init_wf (p : Params) (bars : List Bar) (s : ℕ) (hmin : 1 ≤ p.min_bars)
    (hlen : s + p.min_bars ≤ bars.length)
    (hbars : ∀ bar ∈ bars, bar.low ≤ bar.high) :
    initLower p bars s ≤ initUpper p bars s := by
  have hlw : ((bars.drop s).take p.min_bars).length = p.min_bars := by
    rw [List.length_take, List.length_drop]
    omega
  cases hw : (bars.drop s).take p.min_bars with
  | nil =>
    rw [hw] at hlw
    simp at hlw
    omega
  | cons hd tl =>
    have hmem : hd ∈ bars :=
      List.mem_of_mem_drop (List.mem_of_mem_take (by rw [hw]; exact List.mem_cons_self _ _))
    have h1 : listMin (((bars.drop s).take p.min_bars).map (fun bar => bar.low)) ≤ hd.low :=
      listMin_le hd.low _ (by rw [hw]; simp)
    have h2 : hd.high ≤ listMax (((bars.drop s).take p.min_bars).map (fun bar => bar.high)) :=
      le_listMax hd.high _ (by rw [hw]; simp)
    simp only [initLower, initUpper]
    exact le_trans h1 (le_trans (hbars hd hmem) h2)

theorem candidateState_wf (p : Params) (bars : List Bar) (s : ℕ)
    (hinit : initLower p bars s ≤ initUpper p bars s) :
    (candidateState p bars s).lower ≤ (candidateState p bars s).upper :=
  extendGo_wf p bars s (extCursors p bars s)
    ⟨initUpper p bars s, initLower p bars s, s + p.min_bars - 1, 0, 0⟩ hinit

theorem candidateState_norescue (p : Params) (bars : List Bar) (s : ℕ)
    (hr : p.rescue_bars < p.min_bars) :
    (candidateState p bars s).upper = initUpper p bars s ∧
    (candidateState p bars s).lower = initLower p bars s ∧
    (candidateState p bars s).rescue_up = 0 ∧
    (candidateState p bars s).rescue_down = 0 := by
  have hc : ∀ c ∈ extCursors p bars s, s + p.min_bars ≤ c := by
    intro c hc
    simp only [extCursors, List.mem_range'_1] at hc
    omega
  simpa [candidateState] using
    extendGo_norescue p bars s hr (extCursors p bars s)
      ⟨initUpper p bars s, initLower p bars s, s + p.min_bars - 1, 0, 0⟩ hc

/-- Every box produced by the outer loop at `index` starts no earlier than
`index`, fits in the bar sequence, and comes from `candidate` at its own
start index. -/
theorem detectLoop_mem (p : Params) (bars : List Bar) (hmin : 1 ≤ p.min_bars) :
    ∀ (fuel index : ℕ) (b : Box), b ∈ detectLoop p bars fuel index →
      index ≤ b.startIndex ∧ b.startIndex + p.min_bars ≤ bars.length ∧
      candidate p bars b.startIndex = some b := by
  intro fuel
  induction fuel with
  | zero => intro index b hb; simp [detectLoop] at hb
  | succ fuel ih =>
    intro index b hb
    simp only [detectLoop] at hb
    split at hb
    · rename_i hlen
      cases hcand : candidate p bars index with
      | none =>
        rw [hcand] at hb
        obtain ⟨h1, h2, h3⟩ := ih (index + 1) b hb
        exact ⟨by omega, h2, h3⟩
      | some box =>
        rw [hcand] at hb
        rcases List.mem_cons.mp hb with rfl | hb'
        · obtain ⟨hs, _, _, _, _, _⟩ := candidate_eq p bars index b hcand
          refine ⟨hs.symm.le, ?_, ?_⟩
          · rw [hs]; exact hlen
          · rw [hs]; exact hcand
        · obtain ⟨h1, h2, h3⟩ := ih (box.endIndex + 1) b hb'
          have hse := candidateState_start_le p bars index hmin
          obtain ⟨hs, he, _, _, _, _⟩ := candidate_eq p bars index box hcand
          refine ⟨?_, h2, h3⟩
          omega
    · simp at hb

/-- Boxes come out in strictly increasing, non-overlapping index order. -/
theorem detectLoop_pairwise (p : Params) (bars : List Bar) (hmin : 1 ≤ p.min_bars) :
    ∀ (fuel index : ℕ),
      (detectLoop p bars fuel index).Pairwise (fun a b => a.endIndex < b.startIndex) := by
  intro fuel
  induction fuel with
  | zero => intro index; simp [detectLoop]
  | succ fuel ih =>
    intro index
    simp only [detectLoop]
    split
    · cases hcand : candidate p bars index with
      | none => exact ih (index + 1)
      | some box =>
        refine List.Pairwise.cons ?_ (ih (box.endIndex + 1))
        intro b hb
        obtain ⟨h1, _, _⟩ := detectLoop_mem p bars hmin fuel (box.endIndex + 1) b hb
        omega
    · exact List.Pairwise.nil

theorem detectBoxesOnBars_mem (p : Params) (bars : List Bar) (boxes : List Box) (b : Box)
    (hmin : 1 ≤ p.min_bars) (h : detectBoxesOnBars p bars = some boxes) (hb : b ∈ boxes) :
    b.startIndex + p.min_bars ≤ bars.length ∧ candidate p bars b.startIndex = some b := by
  simp only [detectBoxesOnBars] at h
  split at h
  · simp at h
  · split at h
    · rw [Option.some.injEq] at h
      subst h
      simp at hb
    · rw [Option.some.injEq] at h
      subst h
      obtain ⟨_, h2, h3⟩ := detectLoop_mem p bars hmin _ 0 b hb
      exact ⟨h2, h3⟩

theorem detect_boxes_some (rows : List Row) (p : Params) (boxes : List Box)
    (h : detect_boxes rows p = some boxes) :
    ∃ bars, _to_bars rows = some bars ∧ detectBoxesOnBars p bars = some boxes := by
  simp only [detect_boxes, Option.bind_eq_some] at h
  exact h

end BoxDetector

namespace BoxDetector

/-! ### Claim C1 -/

/-- C1 (claim as stated is false): with `rescue_bars = 3 ≥ min_bars = 3` the
fourth bar's spike is rescued into the bounds, the range check then
terminates the window, and the emitted box keeps the widened `upper = 100`
over `lower = 10` — a range ratio of 9, far above `max_range_pct = 0.18`. -/
theorem claim1_counterexample :
    detect_boxes
      [mkRow 0 10 10 10 10, mkRow 1 10 10 10 10, mkRow 2 10 10 10 10,
       mkRow 3 10 100 10 10]
      { rescue_bars := 3 } =
      some [⟨0, 2, 0, 2, 10, 100, none⟩] ∧
    ¬ ((((100 : ℚ) - 10) / max |(10 : ℚ)| epsBase) ≤ (18 / 100 : ℚ)) := by
  constructor
  · norm_num [detect_boxes, _to_bars, collectBars, sortByKey, insertByKey, mkRow,
      detectBoxesOnBars, detectLoop, candidate, candidateState, extendGo, extCursors,
      initUpper, initLower, listMax, listMin, epsBase, breakoutScan, List.range',
      defaultBar, List.getD, abs, Option.some_ne_none]
  · norm_num [epsBase, abs]

/-- C1 (amended): for every input whose rows satisfy the upstream bar
invariant `low ≤ high`, and every parameter setting with `min_bars ≥ 1`,
every box returned by `detect_boxes` satisfies `upper ≥ lower` and
`endIndex − startIndex + 1 ≥ min_bars`; the emitted bounds additionally
satisfy `(upper − lower) / max(|lower|, 1e-9) ≤ max_range_pct` whenever
`rescue_bars < min_bars` (in particular under the default parameters),
the regime in which no rescued excursion can widen the bounds. -/
theorem claim1_box_invariants (rows : List Row) (p : Params) (boxes : List Box) (b : Box)
    (hmin : 1 ≤ p.min_bars)
    (hwf : ∀ r ∈ rows, ∀ lo hi, r.low = some lo → r.high = some hi → lo ≤ hi)
    (hdet : detect_boxes rows p = some boxes) (hb : b ∈ boxes) :
    b.lower ≤ b.upper ∧ b.startIndex ≤ b.endIndex ∧
    p.min_bars ≤ b.endIndex - b.startIndex + 1 ∧
    (p.rescue_bars < p.min_bars →
      (b.upper - b.lower) / max |b.lower| epsBase ≤ p.max_range_pct) := by
  obtain ⟨bars, hbars, hon⟩ := detect_boxes_some rows p boxes hdet
  have hbw : ∀ bar ∈ bars, bar.low ≤ bar.high := to_bars_wf rows bars hbars hwf
  obtain ⟨hlen, hcand⟩ := detectBoxesOnBars_mem p bars boxes b hmin hon hb
  obtain ⟨hs, he, hup, hlo, hguard, hcount⟩ := candidate_eq p bars b.startIndex b hcand
  have hinit := init_wf p bars b.startIndex hmin hlen hbw
  refine ⟨?_, ?_, ?_, ?_⟩
  · rw [hup, hlo]
    exact candidateState_wf p bars b.startIndex hinit
  · rw [he]
    exact candidateState_start_le p bars b.startIndex hmin
  · rw [he]
    exact hcount
  · intro hr
    obtain ⟨hcu, hcl, _, _⟩ := candidateState_norescue p bars b.startIndex hr
    rw [hup, hlo, hcu, hcl]
    exact le_of_not_lt hguard

/-- C1 (amended) witness: spec §8 Scenario A under the default parameters. -/
theorem claim1_box_invariants_witness :
    ((97 / 10 : ℚ) ≤ 102 / 10 ∧ (0 : ℕ) ≤ 4 ∧ (3 : ℕ) ≤ 4 - 0 + 1 ∧
      (({} : Params).rescue_bars < ({} : Params).min_bars →
        ((102 / 10 : ℚ) - 97 / 10) / max |(97 / 10 : ℚ)| epsBase ≤ ({} : Params).max_range_pct)) :=
  claim1_box_invariants
    [mkRow 0 10 10 (98/10) 10, mkRow 1 10 (102/10) (99/10) 10,
     mkRow 2 10 (99/10) (97/10) 10, mkRow 3 10 (101/10) (98/10) 10,
     mkRow 4 10 10 (99/10) 10] {}
    [⟨0, 4, 0, 4, 97/10, 102/10, none⟩] ⟨0, 4, 0, 4, 97/10, 102/10, none⟩
    (by norm_num)
    (by
      intro r hr lo hi hl hh
      fin_cases hr <;>
        (simp only [mkRow] at hl hh
         injection hl with hl
         injection hh with hh
         subst hl
         subst hh
         norm_num))
    (by
      norm_num [detect_boxes, _to_bars, collectBars, sortByKey, insertByKey, mkRow,
        detectBoxesOnBars, detectLoop, candidate, candidateState, extendGo, extCursors,
        initUpper, initLower, listMax, listMin, epsBase, breakoutScan, List.range',
        defaultBar, List.getD, abs, Option.some_ne_none])
    (List.mem_cons_self _ _)

/-! ### Claim C4 -/

/-- C4: for every input (rows with `min_bars ≥ 1`), the boxes returned by
`detect_boxes` are non-overlapping and emitted in ascending index order —
each box's `startIndex` is strictly greater than every earlier box's
`endIndex` (the scan pointer resumes at `endIndex + 1` after a box and
advances by one bar after a failed candidate), and every box's own span is
well-formed (`startIndex ≤ endIndex`). -/
theorem claim4_scan_ascending (rows : List Row) (p : Params) (boxes : List Box)
    (hmin : 1 ≤ p.min_bars) (hdet : detect_boxes rows p = some boxes) :
    boxes.Pairwise (fun a b => a.endIndex < b.startIndex) ∧
    ∀ b ∈ boxes, b.startIndex ≤ b.endIndex := by
  obtain ⟨bars, hbars, hon⟩ := detect_boxes_some rows p boxes hdet
  constructor
  · simp only [detectBoxesOnBars] at hon
    split at hon
    · simp at hon
    · split at hon
      · rw [Option.some.injEq] at hon
        subst hon
        exact List.Pairwise.nil
      · rw [Option.some.injEq] at hon
        subst hon
        exact detectLoop_pairwise p bars hmin _ 0
  · intro b hb
    obtain ⟨hlen, hcand⟩ := detectBoxesOnBars_mem p bars boxes b hmin hon hb
    obtain ⟨hs, he, _, _, _, _⟩ := candidate_eq p bars b.startIndex b hcand
    rw [he]
    exact candidateState_start_le p bars b.startIndex hmin

/-- C4 witness: two disjoint flat windows produce two boxes in ascending
order (the first one breaking out upward into the second). -/
theorem claim4_scan_ascending_witness :
    ([⟨0, 2, 0, 2, 10, 10, some true⟩, ⟨3, 5, 3, 5, 100, 100, none⟩] : List Box).Pairwise
        (fun a b => a.endIndex < b.startIndex) ∧
    ∀ b ∈ ([⟨0, 2, 0, 2, 10, 10, some true⟩, ⟨3, 5, 3, 5, 100, 100, none⟩] : List Box),
      b.startIndex ≤ b.endIndex :=
  claim4_scan_ascending
    [mkRow 0 10 10 10 10, mkRow 1 10 10 10 10, mkRow 2 10 10 10 10,
     mkRow 3 100 100 100 100, mkRow 4 100 100 100 100, mkRow 5 100 100 100 100] {}
    [⟨0, 2, 0, 2, 10, 10, some true⟩, ⟨3, 5, 3, 5, 100, 100, none⟩]
    (by norm_num)
    (by
      norm_num [detect_boxes, _to_bars, collectBars, sortByKey, insertByKey, mkRow,
        detectBoxesOnBars, detectLoop, candidate, candidateState, extendGo, extCursors,
        initUpper, initLower, listMax, listMin, epsBase, breakoutScan, List.range',
        defaultBar, List.getD, abs, Option.some_ne_none])

/-! ### Claim C9 -/

/-- C9: whenever `rescue_bars < min_bars` — in particular under the default
parameters (`min_bars = 3`, `rescue_bars = 2`) — the rescue branch is
unreachable: every extension cursor sits at offset `≥ min_bars > rescue_bars`
from the window start, so a bar breaking outside the current bounds
terminates the window on the spot, the rescue budgets are never consumed,
and the final bounds equal the initial window's bounds (which passed the
range check). -/
theorem claim9_rescue_unreachable (p : Params) (bars : List Bar) (start : ℕ) (b : Box)
    (c : ℕ) (rest : List ℕ) (st : ExtState)
    (hr : p.rescue_bars < p.min_bars) :
    (candidateState p bars start).rescue_up = 0 ∧
    (candidateState p bars start).rescue_down = 0 ∧
    (candidateState p bars start).upper = initUpper p bars start ∧
    (candidateState p bars start).lower = initLower p bars start ∧
    (start + p.min_bars ≤ c →
      st.upper < (bars.getD c defaultBar).high ∨ (bars.getD c defaultBar).low < st.lower →
      extendGo p bars start (c :: rest) st = st) ∧
    (candidate p bars start = some b →
      b.upper = initUpper p bars start ∧ b.lower = initLower p bars start ∧
      (b.upper - b.lower) / max |b.lower| epsBase ≤ p.max_range_pct) := by
  obtain ⟨hcu, hcl, hru, hrd⟩ := candidateState_norescue p bars start hr
  refine ⟨hru, hrd, hcu, hcl, ?_, ?_⟩
  · intro hcs hout
    exact extendGo_break_terminates p bars start hr c rest st hcs hout
  · intro hcand
    obtain ⟨_, _, hup, hlo, hguard, _⟩ := candidate_eq p bars start b hcand
    rw [hup, hlo, hcu, hcl]
    exact ⟨rfl, rfl, le_of_not_lt hguard⟩

/-- C9 witness: a spike bar at offset 3 of a 3-bar default-parameter window
terminates the extension immediately with the state untouched. -/
theorem claim9_rescue_unreachable_witness :
    extendGo {} [⟨0, 10, 10, 10, 10⟩, ⟨1, 10, 10, 10, 10⟩, ⟨2, 10, 10, 10, 10⟩,
        ⟨3, 10, 100, 10, 10⟩] 0 [3] ⟨10, 10, 2, 0, 0⟩ = ⟨10, 10, 2, 0, 0⟩ :=
  (claim9_rescue_unreachable {} [⟨0, 10, 10, 10, 10⟩, ⟨1, 10, 10, 10, 10⟩,
      ⟨2, 10, 10, 10, 10⟩, ⟨3, 10, 100, 10, 10⟩] 0 ⟨0, 2, 0, 2, 10, 10, none⟩ 3 []
      ⟨10, 10, 2, 0, 0⟩ (by norm_num)).2.2.2.2.1
    (by norm_num)
    (by norm_num [List.getD, defaultBar])

end BoxDetector

/-! ## Moving-average & streak engine (ingest_txt.py lines 50–94; identical
copies live in main.py lines 1439–1487) -/

/-- Inner loop of `_build_ma_series`: walks the values with a running total,
subtracting the value that left the window; `all` is the full close list
(`values[index - period]` lookups), `p ≥ 1` the period. -/
def maGoAux (all : List ℚ) (p : ℕ) : List ℚ → ℕ → ℚ → List (Option ℚ)
  | [], _, _ => []
  | v :: rest, index, total =>
    let total1 := total + v
    let total2 := if p ≤ index then total1 - all.getD (index - p) 0 else total1
    (if p - 1 ≤ index then some (total2 / (p : ℚ)) else none) ::
      maGoAux all p rest (index + 1) total2

/-- `_build_ma_series(values, period)`: `period <= 0` returns an all-`None`
list of the same length (the guard on line 51 — it does NOT raise). -/
def _build_ma_series (values : List ℚ) (period : ℤ) : List (Option ℚ) :=
  if period ≤ 0 then values.map (fun _ => none)
  else maGoAux values period.toNat values 0 0

/-- Mutable state of `_count_streak`'s loop.  Python ints are ℤ. -/
structure StreakState where
  count : ℤ
  opposite : ℤ
  has_values : Bool
deriving DecidableEq, Repr

/-- One iteration of `_count_streak`'s loop over a (value, average) pair. -/
def streakStep (direction : String) (st : StreakState) (value : ℚ) (avg : Option ℚ) :
    StreakState :=
  match avg with
  | none => st
  | some a =>
    let st := { st with has_values := true }
    if direction = "up" then
      if a < value then { st with count := st.count + 1, opposite := 0 }
      else if value < a then
        let opp : ℤ := st.opposite + 1
        if 2 ≤ opp then { st with count := 0, opposite := opp }
        else { st with opposite := opp }
      else { st with opposite := 0 }
    else
      if value < a then { st with count := st.count + 1, opposite := 0 }
      else if a < value then
        let opp : ℤ := st.opposite + 1
        if 2 ≤ opp then { st with count := 0, opposite := opp }
        else { st with opposite := opp }
      else { st with opposite := 0 }

/-- `_count_streak(values, averages, direction)`. -/
def _count_streak (values : List ℚ) (averages : List (Option ℚ))
    (direction : String) : Option ℤ :=
  let st := (values.zip averages).foldl
    (fun st p => streakStep direction st p.1 p.2) ⟨0, 0, false⟩
  if st.has_values then some st.count else none

namespace Ingest

/-- A row of the daily dataframe: the `date`, `c` and `v` columns read by
`compute_stage_score`.  Unconvertible / NaN cells are `none`
(`_safe_float`). -/
structure DRow where
  date : Int
  c : Option ℚ
  v : Option ℚ
deriving DecidableEq, Repr

/-- A row of the monthly dataframe: the `month, o, h, l, c` columns. -/
structure MRow where
  month : Int
  o : Option ℚ
  h : Option ℚ
  l : Option ℚ
  c : Option ℚ
deriving DecidableEq, Repr

/-- `_pct_change(current, previous)`. -/
def _pct_change (current previous : Option ℚ) : Option ℚ :=
  match current, previous with
  | some c, some p => if p = 0 then none else some (c / p - 1)
  | _, _ => none

/-- `_compute_volume_ratio(volumes, period=20)` (ingest_txt.py line 115). -/
def _compute_volume_ratio (volumes : List ℚ) (period : ℕ) : Option ℚ :=
  if volumes.length < period then none
  else
    let window := volumes.drop (volumes.length - period)
    let avg := window.sum / (period : ℚ)
    if avg ≤ 0 then none
    else some (volumes.getLastD 0 / avg)

/-! ### `_detect_body_box` (ingest_txt.py lines 125–185; fixed thresholds
`min 3, max 14, max_range_pct 0.2, wild_wick_pct 0.1`) -/

/-- A converted monthly bar with its candle-body bounds. -/
structure BodyBar where
  time : Int
  open_ : ℚ
  high : ℚ
  low : ℚ
  close : ℚ
  body_high : ℚ
  body_low : ℚ
deriving DecidableEq, Repr

def defaultBodyBar : BodyBar := ⟨0, 0, 0, 0, 0, 0, 0⟩

/-- The dict returned by `_detect_body_box`. -/
structure BodyBox where
  start : Int
  end_ : Int
  upper : ℚ
  lower : ℚ
  months : ℕ
  wild : Bool
  range_pct : ℚ
deriving DecidableEq, Repr

/-- Conversion loop: a row with any of `o, h, l, c` unconvertible is
skipped; `body_high/body_low` are `max/min(open, close)`. -/
def collectBodyBars : List MRow → List BodyBar
  | [] => []
  | r :: rest =>
    if r.o = none ∨ r.h = none ∨ r.l = none ∨ r.c = none then collectBodyBars rest
    else
      ⟨r.month, r.o.getD 0, r.h.getD 0, r.l.getD 0, r.c.getD 0,
        max (r.o.getD 0) (r.c.getD 0), min (r.o.getD 0) (r.c.getD 0)⟩ ::
        collectBodyBars rest

/-- The converted, time-sorted bars `_detect_body_box` scans. -/
def bodyBarsOf (rows : List MRow) : List BodyBar :=
  sortByKey (·.time) (collectBodyBars rows)

/-- `bars[-L:]` — the trailing window of length `L`. -/
def suffixWindow (bars : List BodyBar) (L : ℕ) : List BodyBar :=
  bars.drop (bars.length - L)

def suffixUpper (bars : List BodyBar) (L : ℕ) : ℚ :=
  listMax ((suffixWindow bars L).map (fun b => b.body_high))

def suffixLower (bars : List BodyBar) (L : ℕ) : ℚ :=
  listMin ((suffixWindow bars L).map (fun b => b.body_low))

def suffixRange (bars : List BodyBar) (L : ℕ) : ℚ :=
  (suffixUpper bars L - suffixLower bars L) / max |suffixLower bars L| epsBase

/-- The wild-wick flag: any wick beyond the body bounds by 10 %. -/
def suffixWild (bars : List BodyBar) (L : ℕ) : Bool :=
  (suffixWindow bars L).any fun b =>
    decide (suffixUpper bars L * (1 + 1/10) < b.high) ||
    decide (b.low < suffixLower bars L * (1 - 1/10))

/-- The box dict built for an accepted window of length `L`. -/
def bodyBoxFor (bars : List BodyBar) (L : ℕ) : BodyBox :=
  { start := ((suffixWindow bars L).headD defaultBodyBar).time
    end_ := ((suffixWindow bars L).getLastD defaultBodyBar).time
    upper := suffixUpper bars L
    lower := suffixLower bars L
    months := L
    wild := suffixWild bars L
    range_pct := suffixRange bars L }

/-- The countdown loop `for length in range(max_months, min_months - 1, -1)`:
first (longest) suffix whose body range passes the 0.2 cap wins. -/
def bodyBoxGo (bars : List BodyBar) : ℕ → Option BodyBox
  | 0 => none
  | L + 1 =>
    if L + 1 < 3 then none
    else if 1/5 < suffixRange bars (L + 1) then bodyBoxGo bars L
    else some (bodyBoxFor bars (L + 1))

/-- `_detect_body_box(monthly_rows)`. -/
def _detect_body_box (rows : List MRow) : Option BodyBox :=
  if (collectBodyBars rows).length < 3 then none
  else bodyBoxGo (bodyBarsOf rows) (min 14 (bodyBarsOf rows).length)

/-! ### `compute_stage_score` (ingest_txt.py lines 188–353), assembled from
named sub-definitions mirroring its local variables. -/

/-- `daily_df.sort_values("date")`. -/
def dailySorted (daily : List DRow) : List DRow := sortByKey (·.date) daily

/-- `closes`: convertible closes in date order. -/
def closesOf (daily : List DRow) : List ℚ := (dailySorted daily).filterMap (·.c)

/-- `volumes`: every row's volume, `0.0` when unconvertible. -/
def volumesOf (daily : List DRow) : List ℚ :=
  (dailySorted daily).map (fun r => r.v.getD 0)

/-- `closes[-1] if closes else None`. -/
def lastCloseOf (daily : List DRow) : Option ℚ := (closesOf daily).getLast?

/-- `series[-k]` of an Option-valued series, `none` out of range. -/
def atFromEnd (l : List (Option ℚ)) (k : ℕ) : Option ℚ :=
  (l.get? (l.length - k)).getD none

def maSeriesOf (daily : List DRow) (period : ℤ) : List (Option ℚ) :=
  _build_ma_series (closesOf daily) period

/-- `ma{n} = ma{n}_series[-1] if ma{n}_series else None`. -/
def maLastOf (daily : List DRow) (period : ℤ) : Option ℚ :=
  atFromEnd (maSeriesOf daily period) 1

/-- `series[-1] - series[-2]` when both defined and the series has ≥ 2
entries, else `None` (the slope20/slope60 pattern). -/
def slopeLastOf (series : List (Option ℚ)) : Option ℚ :=
  if 2 ≤ series.length then
    match atFromEnd series 1, atFromEnd series 2 with
    | some a, some b => some (a - b)
    | _, _ => none
  else none

def slope20Of (daily : List DRow) : Option ℚ := slopeLastOf (maSeriesOf daily 20)
def slope60Of (daily : List DRow) : Option ℚ := slopeLastOf (maSeriesOf daily 60)

/-- `monthly_df.sort_values("month")` (the `monthly_rows` list). -/
def monthlyRowsOf (monthly : List MRow) : List MRow := sortByKey (·.month) monthly

/-- `monthly_closes`: convertible monthly closes in month order. -/
def monthlyClosesOf (monthly : List MRow) : List ℚ :=
  (monthlyRowsOf monthly).filterMap (·.c)

/-- `list[-k]` of a plain list. -/
def atQEnd (l : List ℚ) (k : ℕ) : Option ℚ := l.get? (l.length - k)

def chg1mOf (monthly : List MRow) : Option ℚ :=
  if 2 ≤ (monthlyClosesOf monthly).length then
    _pct_change (atQEnd (monthlyClosesOf monthly) 1) (atQEnd (monthlyClosesOf monthly) 2)
  else none

def chg1qOf (monthly : List MRow) : Option ℚ :=
  if 4 ≤ (monthlyClosesOf monthly).length then
    _pct_change (atQEnd (monthlyClosesOf monthly) 1) (atQEnd (monthlyClosesOf monthly) 4)
  else none

def chg1yOf (monthly : List MRow) : Option ℚ :=
  if 13 ≤ (monthlyClosesOf monthly).length then
    _pct_change (atQEnd (monthlyClosesOf monthly) 1) (atQEnd (monthlyClosesOf monthly) 13)
  else none

/-- `box = _detect_body_box(monthly_rows)`. -/
def boxOf (monthly : List MRow) : Option BodyBox :=
  _detect_body_box (monthlyRowsOf monthly)

/-- `box_active`: the latest or immediately prior month falls inside the
box span (lines 257–265). -/
def boxActiveOf (monthly : List MRow) : Bool :=
  match boxOf monthly, (monthlyRowsOf monthly).getLast? with
  | some b, some lastRow =>
    let latest := lastRow.month
    let prevM := ((monthlyRowsOf monthly).get?
      ((monthlyRowsOf monthly).length - 2)).map (·.month)
    if b.start ≤ latest ∧ latest ≤ b.end_ then true
    else
      match prevM with
      | some pm => decide (b.start ≤ pm ∧ pm ≤ b.end_)
      | none => false
  | _, _ => false

/-- `breakout_up`: box active and the last daily close above the box upper
bound (lines 266–267). -/
def breakoutUpOf (daily : List DRow) (monthly : List MRow) : Bool :=
  boxActiveOf monthly &&
    match lastCloseOf daily, boxOf monthly with
    | some lc, some b => decide (b.upper < lc)
    | _, _ => false

/-- The `missing_reasons` list, appended in source order. -/
def missingReasonsOf (daily : List DRow) (monthly : List MRow) : List String :=
  (if (lastCloseOf daily).isNone then ["missing_last_close"] else []) ++
  (if (closesOf daily).length < 60 then ["insufficient_daily_bars"] else []) ++
  (if (maLastOf daily 20).isNone then ["missing_ma20"] else []) ++
  (if (maLastOf daily 60).isNone then ["missing_ma60"] else []) ++
  (if (maLastOf daily 100).isNone then ["missing_ma100"] else []) ++
  (if (monthlyClosesOf monthly).length < 3 then ["insufficient_monthly_bars"] else []) ++
  (if (chg1mOf monthly).isNone then ["missing_chg1m"] else []) ++
  (if (chg1qOf monthly).isNone then ["missing_chg1q"] else []) ++
  (if (chg1yOf monthly).isNone then ["missing_chg1y"] else []) ++
  (if (boxOf monthly).isNone ∧ 3 ≤ (monthlyRowsOf monthly).length then ["no_box"] else [])

/-- The essential-data gate (lines 269–274). -/
def essentialMissingOf (daily : List DRow) : Bool :=
  (lastCloseOf daily).isNone || (maLastOf daily 20).isNone ||
  (maLastOf daily 60).isNone || decide ((closesOf daily).length < 60)

def up60Of (daily : List DRow) : Option ℤ :=
  _count_streak (closesOf daily) (maSeriesOf daily 60) "up"
def down60Of (daily : List DRow) : Option ℤ :=
  _count_streak (closesOf daily) (maSeriesOf daily 60) "down"
def down20Of (daily : List DRow) : Option ℤ :=
  _count_streak (closesOf daily) (maSeriesOf daily 20) "down"
def up20Of (daily : List DRow) : Option ℤ :=
  _count_streak (closesOf daily) (maSeriesOf daily 20) "up"

/-- `a < b` on guarded optionals, false when either side is `None` (mirrors
the `x is not None and ... > ...` guards). -/
def ltOpt (a b : Option ℚ) : Bool :=
  match a, b with
  | some x, some y => decide (x < y)
  | _, _ => false

/-- The stage-C condition: `up60 is not None and (up60 >= 22 or (last_close
> ma60 and (slope60 or 0) >= 0))`; Python's `or`-coalescing of a `None` (or
`0.0`) slope is `(slope60Of daily).getD 0`. -/
def stageCcondB (daily : List DRow) : Bool :=
  match up60Of daily with
  | none => false
  | some u =>
    decide (22 ≤ u) ||
      (match lastCloseOf daily, maLastOf daily 60 with
       | some lc, some m60 =>
         decide (m60 < lc) && decide (0 ≤ (slope60Of daily).getD 0)
       | _, _ => false)

/-- The stage-A condition: `down60 is not None and down20 is not None and
down60 >= 20 and down20 >= 10`. -/
def stageAcondB (daily : List DRow) : Bool :=
  match down60Of daily, down20Of daily with
  | some d60, some d20 => decide (20 ≤ d60) && decide (10 ≤ d20)
  | _, _ => false

/-- The stage decision (lines 284–288). -/
def stageOf (daily : List DRow) : String :=
  if stageCcondB daily then "C" else if stageAcondB daily then "A" else "B"

/-- `trend` component (cap 40). -/
def trendOf (daily : List DRow) : ℚ :=
  min 40
    ((if ltOpt (maLastOf daily 20) (lastCloseOf daily) then (8 : ℚ) else 0) +
     (if ltOpt (maLastOf daily 60) (maLastOf daily 20) then 10 else 0) +
     (if ltOpt (maLastOf daily 60) (lastCloseOf daily) then 12 else 0) +
     (if ltOpt (maLastOf daily 100) (maLastOf daily 60) then 10 else 0) +
     (if ltOpt (some 0) (slope20Of daily) then 3 else 0))

/-- `init_move` component (cap 25): fresh MA20 cross plus monthly breakout. -/
def initMoveOf (daily : List DRow) (monthly : List MRow) : ℚ :=
  let closes := closesOf daily
  let ma20s := maSeriesOf daily 20
  let fresh : Bool :=
    if 2 ≤ closes.length ∧ 2 ≤ ma20s.length then
      match atFromEnd ma20s 2, closes.get? (closes.length - 2) with
      | some prev, some c2 =>
        decide (c2 ≤ prev) && ltOpt (maLastOf daily 20) (lastCloseOf daily)
      | _, _ => false
    else false
  min 25 ((if fresh then (15 : ℚ) else 0) + (if breakoutUpOf daily monthly then 10 else 0))

/-- `base_build` component (cap 15). -/
def baseBuildOf (daily : List DRow) : ℚ :=
  let ma7s := maSeriesOf daily 7
  let riser : Bool :=
    if 2 ≤ ma7s.length then
      match atFromEnd ma7s 1, atFromEnd ma7s 2 with
      | some m7, some prev => decide (prev < m7)
      | _, _ => false
    else false
  let baseA : Bool :=
    decide (stageOf daily = "A") &&
      (match lastCloseOf daily, maLastOf daily 20 with
       | some lc, some m20 => decide (m20 * (98/100) ≤ lc)
       | _, _ => false)
  min 15 ((if baseA then (8 : ℚ) else 0) + (if riser then 4 else 0))

/-- `box` component (cap 15): `+12` on breakout-up, else `+8` when active. -/
def boxScoreOf (daily : List DRow) (monthly : List MRow) : ℚ :=
  min 15
    (if breakoutUpOf daily monthly then (12 : ℚ)
     else if boxActiveOf monthly then 8 else 0)

/-- `volume` component. -/
def volumeScoreOf (daily : List DRow) : ℚ :=
  match _compute_volume_ratio (volumesOf daily) 20 with
  | some r => if 3/2 ≤ r then 5 else if 11/10 ≤ r then 2 else 0
  | none => 0

/-- `penalty` component (floor −20). -/
def penaltyOf (daily : List DRow) : ℚ :=
  max (-20)
    ((if (match up20Of daily with | some u => decide (20 ≤ u) | none => false) then (-5 : ℚ) else 0) +
     (if (match up60Of daily with | some u => decide (22 ≤ u) | none => false) then -10 else 0))

/-- The `score_breakdown` dict (insertion order preserved). -/
def breakdownOf (daily : List DRow) (monthly : List MRow) : List (String × ℚ) :=
  [("trend", trendOf daily), ("init_move", initMoveOf daily monthly),
   ("base_build", baseBuildOf daily), ("box", boxScoreOf daily monthly),
   ("volume", volumeScoreOf daily), ("penalty", penaltyOf daily)]

/-- The clamped raw score before rounding. -/
def clampedScoreOf (daily : List DRow) (monthly : List MRow) : ℚ :=
  max 0 (min 100
    (trendOf daily + initMoveOf daily monthly + baseBuildOf daily +
     boxScoreOf daily monthly + volumeScoreOf daily + penaltyOf daily))

/-- The `(stage, score, status, missingReasons, breakdown)` tuple. -/
structure StageResult where
  stage : String
  score : Option ℚ
  status : String
  missingReasons : List String
  breakdown : List (String × ℚ)
deriving DecidableEq, Repr

/-- `compute_stage_score(daily_df, monthly_df)`. -/
def compute_stage_score (daily : List DRow) (monthly : List MRow) : StageResult :=
  if essentialMissingOf daily then
    ⟨"UNKNOWN", none, "INSUFFICIENT_DATA", missingReasonsOf daily monthly, []⟩
  else
    ⟨stageOf daily, some (round3 (clampedScoreOf daily monthly)), "OK",
      missingReasonsOf daily monthly, breakdownOf daily monthly⟩

end Ingest

/-! ## Claims C7 and C3 (MA / streak engine) -/

/-- C7 (claim as stated is false): `_build_ma_series` called with the
negative period `-1` does not raise — it returns a defined value, the
all-`None` list. -/
theorem claim7_counterexample :
    _build_ma_series [1, 2, 3] (-1) = [none, none, none] := by
  norm_num [_build_ma_series]

/-- C7 (amended): for every close series and every period ≤ 0 (negative
periods included), `_build_ma_series` swallows the contract violation and
returns an all-`None` list of the same length instead of raising. -/
theorem claim7_negative_period_swallowed (values : List ℚ) (period : ℤ)
    (h : period ≤ 0) :
    _build_ma_series values period = values.map (fun _ => none) := by
  simp [_build_ma_series, h]

/-- C7 (amended) witness. -/
theorem claim7_negative_period_swallowed_witness :
    _build_ma_series [5, 7] (-3) = ([5, 7] : List ℚ).map (fun _ => none) :=
  claim7_negative_period_swallowed [5, 7] (-3) (by norm_num)

/-- Price strictly on the favorable side of the average. -/
def favorable (direction : String) (value avg : ℚ) : Prop :=
  if direction = "up" then avg < value else value < avg

/-- Price strictly on the unfavorable side of the average. -/
def unfavorable (direction : String) (value avg : ℚ) : Prop :=
  if direction = "up" then value < avg else avg < value

theorem streakFold_count_nonneg (direction : String) :
    ∀ (l : List (ℚ × Option ℚ)) (st : StreakState), 0 ≤ st.count →
      0 ≤ (l.foldl (fun st p => streakStep direction st p.1 p.2) st).count := by
  intro l
  induction l with
  | nil => intro st h; exact h
  | cons p rest ih =>
    intro st h
    have hstep : ∀ (v : ℚ) (av : Option ℚ), 0 ≤ (streakStep direction st v av).count := by
      intro v av
      cases av with
      | none => simpa [streakStep] using h
      | some a =>
        simp only [streakStep]
        split_ifs <;> simp <;> omega
    exact ih _ (hstep p.1 p.2)

theorem streakStep_has_values (direction : String) (st : StreakState) (v a : ℚ) :
    (streakStep direction st v (some a)).has_values = true := by
  simp only [streakStep]
  split_ifs <;> rfl

theorem streakFold_has_values (direction : String) :
    ∀ (l : List (ℚ × Option ℚ)) (st : StreakState),
      (l.foldl (fun st p => streakStep direction st p.1 p.2) st).has_values =
        (st.has_values || l.any (fun p => p.2.isSome)) := by
  intro l
  induction l with
  | nil => intro st; simp
  | cons p rest ih =>
    intro st
    rw [List.foldl_cons, ih, List.any_cons]
    cases hp : p.2 with
    | none => simp [streakStep, hp]
    | some a => simp [hp, streakStep_has_values]

/-- A step on a strictly unfavorable bar: the opposite counter increments
and the count resets exactly when it reaches 2. -/
theorem streakStep_unfav (direction : String) (st : StreakState) (v a : ℚ)
    (hu : unfavorable direction v a) :
    streakStep direction st v (some a) =
      StreakState.mk (if 2 ≤ st.opposite + 1 then 0 else st.count)
        (st.opposite + 1) true := by
  by_cases hd : direction = "up"
  · simp only [unfavorable, hd, reduceIte] at hu
    simp only [streakStep, hd, reduceIte]
    rw [if_neg (lt_asymm hu), if_pos hu]
    split_ifs with h2 <;> rfl
  · simp only [unfavorable, hd, reduceIte] at hu
    simp only [streakStep, hd, reduceIte]
    rw [if_neg (lt_asymm hu), if_pos hu]
    split_ifs with h2 <;> rfl

/-- C3: the streak counter of `_count_streak` (shared verbatim by
ingest_txt.py and main.py): skips bars with an undefined average entirely;
increments exactly on a strictly favorable bar; is not reset by a single
unfavorable bar (opposite counter at 0); is reset to 0 by a second
consecutive unfavorable bar; the opposite counter clears on any
non-unfavorable defined bar; the function returns `null` iff no (value,
average) pair ever had a defined average, and otherwise a count ≥ 0. -/
theorem claim3_streak_hysteresis
    (values : List ℚ) (averages : List (Option ℚ)) (direction : String)
    (st : StreakState) (v v' a a' : ℚ) (n : ℤ) :
    (_count_streak values averages direction = none ↔
      ∀ p ∈ values.zip averages, p.2 = none) ∧
    (_count_streak values averages direction = some n → 0 ≤ n) ∧
    (streakStep direction st v none = st) ∧
    (0 ≤ st.count →
      ((streakStep direction st v (some a)).count = st.count + 1 ↔
        favorable direction v a)) ∧
    (unfavorable direction v a → st.opposite ≤ 0 →
      (streakStep direction st v (some a)).count = st.count) ∧
    (0 ≤ st.opposite → unfavorable direction v a → unfavorable direction v' a' →
      (streakStep direction (streakStep direction st v (some a)) v' (some a')).count = 0) ∧
    (¬ unfavorable direction v a →
      (streakStep direction st v (some a)).opposite = 0) := by
  refine ⟨?_, ?_, ?_, ?_, ?_, ?_, ?_⟩
  · simp only [_count_streak]
    constructor
    · intro h
      split at h
      · exact absurd h (by simp)
      · rename_i hsv
        rw [streakFold_has_values] at hsv
        simp only [Bool.false_or] at hsv
        intro p hp
        by_contra hne
        exact hsv (List.any_eq_true.mpr ⟨p, hp, Option.ne_none_iff_isSome.mp hne⟩)
    · intro h
      have hsv : ((values.zip averages).foldl
          (fun st p => streakStep direction st p.1 p.2) ⟨0, 0, false⟩).has_values = false := by
        rw [streakFold_has_values]
        simp only [Bool.false_or]
        rw [List.any_eq_false]
        intro p hp
        simp [h p hp]
      rw [if_neg (by simp [hsv])]
  · simp only [_count_streak]
    split
    · intro h
      rw [Option.some.injEq] at h
      subst h
      exact streakFold_count_nonneg direction _ _ (le_refl 0)
    · intro h
      exact absurd h (by simp)
  · rfl
  · intro hc
    by_cases hd : direction = "up" <;>
      (simp only [streakStep, hd, if_pos, if_neg, favorable, reduceIte] <;>
       split_ifs <;> simp_all <;> constructor <;> intro h <;>
         first
           | omega
           | (exfalso; omega)
           | (exfalso; exact absurd h (by first | exact lt_asymm ‹_› | exact lt_irrefl _ | omega))
           | skip)
  · intro hu ho
    rw [streakStep_unfav direction st v a hu]
    show (if 2 ≤ st.opposite + 1 then (0 : ℤ) else st.count) = st.count
    rw [if_neg (by omega)]
  · intro ho hu hu'
    rw [streakStep_unfav direction st v a hu,
      streakStep_unfav direction _ v' a' hu']
    show (if 2 ≤ st.opposite + 1 + 1 then (0 : ℤ)
          else if 2 ≤ st.opposite + 1 then 0 else st.count) = 0
    rw [if_pos (by omega)]
  · intro hu
    by_cases hd : direction = "up" <;>
      simp only [unfavorable, hd, reduceIte] at hu <;>
      simp only [streakStep, hd, reduceIte] <;>
      split_ifs <;> simp_all

/-- C3 witness: a streak of 3 survives one unfavorable bar, is reset by two
consecutive unfavorable bars, and increments exactly on a favorable bar. -/
theorem claim3_streak_hysteresis_witness :
    (streakStep "up" (streakStep "up" ⟨3, 0, true⟩ 1 (some 2)) 1 (some 2)).count = 0 ∧
    (streakStep "up" ⟨3, 0, true⟩ 1 (some 2)).count = 3 ∧
    ((streakStep "up" ⟨3, 0, true⟩ 2 (some 1)).count = 3 + 1 ↔ favorable "up" 2 1) := by
  refine ⟨?_, ?_, ?_⟩
  · exact (claim3_streak_hysteresis [] [] "up" ⟨3, 0, true⟩ 1 1 2 2 0).2.2.2.2.2.1
      (by norm_num) (by norm_num [unfavorable]) (by norm_num [unfavorable])
  · exact (claim3_streak_hysteresis [] [] "up" ⟨3, 0, true⟩ 1 1 2 2 0).2.2.2.2.1
      (by norm_num [unfavorable]) (by norm_num)
  · exact (claim3_streak_hysteresis [] [] "up" ⟨3, 0, true⟩ 2 1 1 1 0).2.2.2.1
      (by norm_num)

/-! ## Sortedness / getLast? toolkit for the body-box claims -/

theorem length_insertByKey {α : Type} (key : α → Int) (b : α) :
    ∀ l : List α, (insertByKey key b l).length = l.length + 1 := by
  intro l
  induction l with
  | nil => rfl
  | cons h t ih =>
    simp only [insertByKey]
    split
    · simp [ih]
    · simp

theorem length_sortByKey_aux {α : Type} (key : α → Int) :
    ∀ (l acc : List α),
      (l.foldl (fun acc b => insertByKey key b acc) acc).length = acc.length + l.length := by
  intro l
  induction l with
  | nil => simp
  | cons h t ih =>
    intro acc
    rw [List.foldl_cons, ih, length_insertByKey]
    simp only [List.length_cons]
    omega

theorem length_sortByKey {α : Type} (key : α → Int) (l : List α) :
    (sortByKey key l).length = l.length := by
  simp [sortByKey, length_sortByKey_aux]

theorem pairwise_insertByKey {α : Type} (key : α → Int) (b : α) :
    ∀ l : List α, l.Pairwise (fun x y => key x ≤ key y) →
      (insertByKey key b l).Pairwise (fun x y => key x ≤ key y) := by
  intro l
  induction l with
  | nil => intro _; simp [insertByKey]
  | cons h t ih =>
    intro hp
    obtain ⟨hhead, htail⟩ := List.pairwise_cons.mp hp
    simp only [insertByKey]
    split
    · rename_i hle
      refine List.pairwise_cons.mpr ⟨?_, ih htail⟩
      intro y hy
      rcases (BoxDetector.mem_insertByKey key b y t).mp hy with rfl | hy'
      · exact hle
      · exact hhead y hy'
    · rename_i hgt
      refine List.pairwise_cons.mpr ⟨?_, hp⟩
      intro y hy
      have hbx : key b ≤ key h := le_of_not_le hgt
      rcases List.mem_cons.mp hy with rfl | hy'
      · exact hbx
      · exact le_trans hbx (hhead y hy')

theorem pairwise_sortByKey_aux {α : Type} (key : α → Int) :
    ∀ (l acc : List α), acc.Pairwise (fun x y => key x ≤ key y) →
      (l.foldl (fun acc b => insertByKey key b acc) acc).Pairwise
        (fun x y => key x ≤ key y) := by
  intro l
  induction l with
  | nil => intro acc h; exact h
  | cons h t ih =>
    intro acc hacc
    exact ih _ (pairwise_insertByKey key h acc hacc)

theorem pairwise_sortByKey {α : Type} (key : α → Int) (l : List α) :
    (sortByKey key l).Pairwise (fun x y => key x ≤ key y) :=
  pairwise_sortByKey_aux key l [] (by simp)

theorem mem_getLast? {α : Type} : ∀ (l : List α) (z : α), l.getLast? = some z → z ∈ l := by
  intro l
  induction l with
  | nil => intro z hz; simp at hz
  | cons h t ih =>
    intro z hz
    cases t with
    | nil =>
      simp only [List.getLast?_singleton, Option.some.injEq] at hz
      subst hz
      exact List.mem_cons_self _ _
    | cons h2 t2 =>
      rw [List.getLast?_cons_cons] at hz
      exact List.mem_cons_of_mem _ (ih z hz)

theorem pairwise_le_getLast {α : Type} (key : α → Int) :
    ∀ (l : List α), l.Pairwise (fun x y => key x ≤ key y) →
      ∀ x ∈ l, ∀ z, l.getLast? = some z → key x ≤ key z := by
  intro l
  induction l with
  | nil => simp
  | cons h t ih =>
    intro hp x hx z hz
    obtain ⟨hhead, htail⟩ := List.pairwise_cons.mp hp
    rcases List.mem_cons.mp hx with rfl | hx'
    · cases t with
      | nil =>
        simp only [List.getLast?_singleton, Option.some.injEq] at hz
        subst hz
        exact le_refl _
      | cons h2 t2 =>
        rw [List.getLast?_cons_cons] at hz
        exact hhead z (mem_getLast? _ z hz)
    · cases t with
      | nil => simp at hx'
      | cons h2 t2 =>
        rw [List.getLast?_cons_cons] at hz
        exact ih htail x hx' z hz

theorem getLast?_drop_of_lt {α : Type} :
    ∀ (l : List α) (n : ℕ), n < l.length → (l.drop n).getLast? = l.getLast? := by
  intro l
  induction l with
  | nil => intro n hn; simp at hn
  | cons h t ih =>
    intro n hn
    cases n with
    | zero => rfl
    | succ m =>
      have hm : m < t.length := by
        simp only [List.length_cons] at hn
        omega
      rw [List.drop_succ_cons, ih m hm]
      cases t with
      | nil => simp at hm
      | cons h2 t2 => rw [List.getLast?_cons_cons]

namespace Ingest

/-! ### Body-box lemmas (claims C6 and C10) -/

/-- Every converted bar's time is some input row's month. -/
theorem collectBodyBars_time_mem :
    ∀ (rows : List MRow), ∀ bb ∈ collectBodyBars rows, ∃ r ∈ rows, bb.time = r.month := by
  intro rows
  induction rows with
  | nil => intro bb hbb; simp [collectBodyBars] at hbb
  | cons r rest ih =>
    intro bb hbb
    simp only [collectBodyBars] at hbb
    split at hbb
    · obtain ⟨r', hr', h⟩ := ih bb hbb
      exact ⟨r', List.mem_cons_of_mem _ hr', h⟩
    · rcases List.mem_cons.mp hbb with rfl | hbb'
      · exact ⟨r, List.mem_cons_self _ _, rfl⟩
      · obtain ⟨r', hr', h⟩ := ih bb hbb'
        exact ⟨r', List.mem_cons_of_mem _ hr', h⟩

/-- A fully convertible row contributes a bar carrying its month. -/
theorem collectBodyBars_of_convertible :
    ∀ (rows : List MRow) (r : MRow), r ∈ rows →
      r.o ≠ none → r.h ≠ none → r.l ≠ none → r.c ≠ none →
      ∃ bb ∈ collectBodyBars rows, bb.time = r.month := by
  intro rows
  induction rows with
  | nil => intro r hr; simp at hr
  | cons x rest ih =>
    intro r hr ho hh hl hc
    rcases List.mem_cons.mp hr with rfl | hr'
    · simp only [collectBodyBars]
      split
      · rename_i hbad
        rcases hbad with h | h | h | h
        · exact absurd h ho
        · exact absurd h hh
        · exact absurd h hl
        · exact absurd h hc
      · exact ⟨_, List.mem_cons_self _ _, rfl⟩
    · obtain ⟨bb, hbb, h⟩ := ih r hr' ho hh hl hc
      simp only [collectBodyBars]
      split
      · exact ⟨bb, hbb, h⟩
      · exact ⟨bb, List.mem_cons_of_mem _ hbb, h⟩

/-- The countdown loop characterised: a returned box is the widest suffix
of length in `[3, K]` whose body range passes the 0.2 cap. -/
theorem bodyBoxGo_some (bars : List BodyBar) :
    ∀ (K : ℕ) (b : BodyBox), bodyBoxGo bars K = some b →
      ∃ L, 3 ≤ L ∧ L ≤ K ∧ b = bodyBoxFor bars L ∧ ¬ (1/5 < suffixRange bars L) ∧
        ∀ M, L < M → M ≤ K → 1/5 < suffixRange bars M := by
  intro K
  induction K with
  | zero => intro b hb; simp [bodyBoxGo] at hb
  | succ K ih =>
    intro b hb
    simp only [bodyBoxGo] at hb
    split at hb
    · simp at hb
    · rename_i h3
      split at hb
      · rename_i hrange
        obtain ⟨L, hL3, hLK, hbeq, hpass, hmax⟩ := ih b hb
        refine ⟨L, hL3, by omega, hbeq, hpass, ?_⟩
        intro M hLM hMK
        rcases Nat.lt_or_ge M (K + 1) with hM | hM
        · exact hmax M hLM (by omega)
        · have hMeq : M = K + 1 := by omega
          rw [hMeq]
          exact hrange
      · rename_i hrange
        rw [Option.some.injEq] at hb
        subst hb
        refine ⟨K + 1, by omega, le_refl _, rfl, hrange, ?_⟩
        intro M h1 h2
        exact absurd h2 (by omega)

/-- Modelled from the spec (C6's comparison target, §4.3 step 3): the §4.2
sliding-window detector run over candle bodies — each monthly row recast
with `high = max(open, close)` and `low = min(open, close)` — with the
tuned thresholds `min_bars = 3, max_bars = 14, max_range_pct = 0.2`. -/
def specBodyRows (rows : List MRow) : List BoxDetector.Row :=
  rows.map fun r =>
    ⟨some r.month, r.o,
     (match r.o, r.c with | some o, some c => some (max o c) | _, _ => none),
     (match r.o, r.c with | some o, some c => some (min o c) | _, _ => none),
     r.c⟩

/-- Modelled from the spec: the detector call C6 compares against. -/
def specBodyDetect (rows : List MRow) : Option (List BoxDetector.Box) :=
  BoxDetector.detect_boxes (specBodyRows rows)
    { min_bars := 3, max_bars := 14, max_range_pct := 1/5 }

/-- C6 (claim as stated is false): the first three monthly bars are flat
but the fourth is a huge candle; the sliding-window detector (§4.2, run on
candle bodies with the tuned thresholds) finds the box over bars 0–2 while
`_detect_body_box`, which only inspects trailing windows, finds nothing. -/
theorem claim6_counterexample :
    _detect_body_box
      [⟨1, some 10, some 10, some 10, some 10⟩, ⟨2, some 10, some 10, some 10, some 10⟩,
       ⟨3, some 10, some 10, some 10, some 10⟩,
       ⟨4, some 100, some 100, some 100, some 100⟩] = none ∧
    specBodyDetect
      [⟨1, some 10, some 10, some 10, some 10⟩, ⟨2, some 10, some 10, some 10, some 10⟩,
       ⟨3, some 10, some 10, some 10, some 10⟩,
       ⟨4, some 100, some 100, some 100, some 100⟩] =
      some [⟨0, 2, 1, 3, 10, 10, some true⟩] := by
  constructor
  · norm_num [_detect_body_box, collectBodyBars, bodyBarsOf, sortByKey, insertByKey,
      bodyBoxGo, suffixRange, suffixUpper, suffixLower, suffixWindow, listMax, listMin,
      epsBase, abs, Option.some_ne_none]
  · norm_num [specBodyDetect, specBodyRows, BoxDetector.detect_boxes, BoxDetector._to_bars,
      BoxDetector.collectBars, sortByKey, insertByKey, BoxDetector.detectBoxesOnBars,
      BoxDetector.detectLoop, BoxDetector.candidate, BoxDetector.candidateState,
      BoxDetector.extendGo, BoxDetector.extCursors, BoxDetector.initUpper,
      BoxDetector.initLower, listMax, listMin, epsBase, BoxDetector.breakoutScan,
      List.range', BoxDetector.defaultBar, List.getD, abs, Option.some_ne_none]

/-- C6 (amended): `_detect_body_box` is not the §4.2 sliding-window scan —
it returns the box over the longest trailing window of between 3 and
`min(14, n)` bars whose candle-body range is within 0.2 (bounds are the
extreme body highs/lows of that window), and no box when every such
trailing window fails the cap. -/
theorem claim6_trailing_window (rows : List MRow) (b : BodyBox)
    (h : _detect_body_box rows = some b) :
    3 ≤ (bodyBarsOf rows).length ∧
    ∃ L, 3 ≤ L ∧ L ≤ min 14 (bodyBarsOf rows).length ∧
      b = bodyBoxFor (bodyBarsOf rows) L ∧
      suffixRange (bodyBarsOf rows) L ≤ 1/5 ∧
      ∀ M, L < M → M ≤ min 14 (bodyBarsOf rows).length →
        1/5 < suffixRange (bodyBarsOf rows) M := by
  simp only [_detect_body_box] at h
  split at h
  · simp at h
  · rename_i hlen
    have hlen' : 3 ≤ (bodyBarsOf rows).length := by
      rw [bodyBarsOf, length_sortByKey]
      omega
    obtain ⟨L, h3, hK, hbeq, hpass, hmax⟩ := bodyBoxGo_some (bodyBarsOf rows) _ b h
    exact ⟨hlen', L, h3, hK, hbeq, le_of_not_lt hpass, hmax⟩

/-- C6 (amended) witness: three flat monthly bars give the full-suffix box. -/
theorem claim6_trailing_window_witness :
    3 ≤ (bodyBarsOf [⟨1, some 10, some 10, some 10, some 10⟩,
        ⟨2, some 10, some 10, some 10, some 10⟩,
        ⟨3, some 10, some 10, some 10, some 10⟩]).length ∧
    ∃ L, 3 ≤ L ∧ L ≤ min 14 (bodyBarsOf [⟨1, some 10, some 10, some 10, some 10⟩,
        ⟨2, some 10, some 10, some 10, some 10⟩,
        ⟨3, some 10, some 10, some 10, some 10⟩]).length ∧
      (⟨1, 3, 10, 10, 3, false, 0⟩ : BodyBox) =
        bodyBoxFor (bodyBarsOf [⟨1, some 10, some 10, some 10, some 10⟩,
          ⟨2, some 10, some 10, some 10, some 10⟩,
          ⟨3, some 10, some 10, some 10, some 10⟩]) L ∧
      suffixRange (bodyBarsOf [⟨1, some 10, some 10, some 10, some 10⟩,
          ⟨2, some 10, some 10, some 10, some 10⟩,
          ⟨3, some 10, some 10, some 10, some 10⟩]) L ≤ 1/5 ∧
      ∀ M, L < M → M ≤ min 14 (bodyBarsOf [⟨1, some 10, some 10, some 10, some 10⟩,
          ⟨2, some 10, some 10, some 10, some 10⟩,
          ⟨3, some 10, some 10, some 10, some 10⟩]).length →
        1/5 < suffixRange (bodyBarsOf [⟨1, some 10, some 10, some 10, some 10⟩,
          ⟨2, some 10, some 10, some 10, some 10⟩,
          ⟨3, some 10, some 10, some 10, some 10⟩]) M :=
  claim6_trailing_window
    [⟨1, some 10, some 10, some 10, some 10⟩, ⟨2, some 10, some 10, some 10, some 10⟩,
     ⟨3, some 10, some 10, some 10, some 10⟩] ⟨1, 3, 10, 10, 3, false, 0⟩
    (by
      norm_num [_detect_body_box, collectBodyBars, bodyBarsOf, sortByKey, insertByKey,
        bodyBoxGo, suffixRange, suffixUpper, suffixLower, suffixWindow, suffixWild,
        bodyBoxFor, defaultBodyBar, listMax, listMin, epsBase, abs, Option.some_ne_none])

end Ingest

namespace Ingest

/-- C10 (claim as stated is false): a monthly history whose last two rows
have unconvertible closes — the detected box ends at the last convertible
bar (month 3), the latest and prior raw months (5 and 4) fall outside its
span, so `box_active` is false and the box score component is 0 although a
box was detected. -/
theorem claim10_counterexample :
    boxOf
      [⟨1, some 10, some 10, some 10, some 10⟩, ⟨2, some 10, some 10, some 10, some 10⟩,
       ⟨3, some 10, some 10, some 10, some 10⟩, ⟨4, some 10, some 10, some 10, none⟩,
       ⟨5, some 10, some 10, some 10, none⟩] =
      some ⟨1, 3, 10, 10, 3, false, 0⟩ ∧
    boxActiveOf
      [⟨1, some 10, some 10, some 10, some 10⟩, ⟨2, some 10, some 10, some 10, some 10⟩,
       ⟨3, some 10, some 10, some 10, some 10⟩, ⟨4, some 10, some 10, some 10, none⟩,
       ⟨5, some 10, some 10, some 10, none⟩] = false ∧
    boxScoreOf []
      [⟨1, some 10, some 10, some 10, some 10⟩, ⟨2, some 10, some 10, some 10, some 10⟩,
       ⟨3, some 10, some 10, some 10, some 10⟩, ⟨4, some 10, some 10, some 10, none⟩,
       ⟨5, some 10, some 10, some 10, none⟩] = 0 := by
  refine ⟨?_, ?_, ?_⟩ <;>
    norm_num [boxOf, boxActiveOf, boxScoreOf, breakoutUpOf, lastCloseOf, closesOf,
      dailySorted, monthlyRowsOf, _detect_body_box, collectBodyBars, bodyBarsOf,
      sortByKey, insertByKey, bodyBoxGo, suffixRange, suffixUpper, suffixLower,
      suffixWindow, suffixWild, bodyBoxFor, defaultBodyBar, listMax, listMin,
      epsBase, abs, Option.some_ne_none]

/-- C10 (amended): every detected body box ends at the most recent
*convertible* monthly bar; `box_active` is guaranteed whenever the latest
raw monthly row itself is convertible (then its month equals the box end),
and under a passing gate an active box contributes at least 8 points to the
`box` breakdown component.  (When the trailing raw rows are unconvertible,
the latest and prior months can both fall outside the box span and
`box_active` can be false with a box present.) -/
theorem claim10_box_active (monthly : List MRow) (daily : List DRow) (b : BodyBox)
    (hbox : boxOf monthly = some b) :
    (∃ lastBar, (bodyBarsOf (monthlyRowsOf monthly)).getLast? = some lastBar ∧
      b.end_ = lastBar.time) ∧
    ((∀ lastRow, (monthlyRowsOf monthly).getLast? = some lastRow →
        lastRow.o ≠ none ∧ lastRow.h ≠ none ∧ lastRow.l ≠ none ∧ lastRow.c ≠ none) →
      boxActiveOf monthly = true) ∧
    ((compute_stage_score daily monthly).status = "OK" → boxActiveOf monthly = true →
      ∃ v, ((compute_stage_score daily monthly).breakdown).lookup "box" = some v ∧
        8 ≤ v) := by
  have hgo := hbox
  simp only [boxOf, _detect_body_box] at hgo
  split at hgo
  · simp at hgo
  · rename_i hlen
    have hlen' : 3 ≤ (bodyBarsOf (monthlyRowsOf monthly)).length := by
      rw [bodyBarsOf, length_sortByKey]
      omega
    obtain ⟨L, hL3, hLK, hbeq, _, _⟩ :=
      bodyBoxGo_some (bodyBarsOf (monthlyRowsOf monthly)) _ b hgo
    have hLlen : L ≤ (bodyBarsOf (monthlyRowsOf monthly)).length := by
      have := min_le_right 14 (bodyBarsOf (monthlyRowsOf monthly)).length
      omega
    -- the last body bar exists
    have hne : (bodyBarsOf (monthlyRowsOf monthly)) ≠ [] := by
      intro hcon
      rw [hcon] at hlen'
      simp at hlen'
    obtain ⟨lastBar, hlastBar⟩ :
        ∃ z, (bodyBarsOf (monthlyRowsOf monthly)).getLast? = some z := by
      cases hG : (bodyBarsOf (monthlyRowsOf monthly)).getLast? with
      | none => exact absurd (List.getLast?_eq_none_iff.mp hG) hne
      | some z => exact ⟨z, rfl⟩
    -- the box ends at the last body bar
    have hend : b.end_ = lastBar.time := by
      rw [hbeq]
      simp only [bodyBoxFor, suffixWindow, List.getLastD_eq_getLast?]
      rw [getLast?_drop_of_lt _ _ (by omega), hlastBar]
      rfl
    refine ⟨⟨lastBar, hlastBar, hend⟩, ?_, ?_⟩
    · intro hconv
      -- the raw row list is nonempty
      have hrowsne : ∃ lr, (monthlyRowsOf monthly).getLast? = some lr := by
        have hmem := mem_getLast? _ _ hlastBar
        rw [bodyBarsOf, BoxDetector.mem_sortByKey] at hmem
        obtain ⟨r, hr, _⟩ := collectBodyBars_time_mem _ lastBar hmem
        have : (monthlyRowsOf monthly) ≠ [] := by
          intro hcon
          rw [hcon] at hr
          simp at hr
        cases hG : (monthlyRowsOf monthly).getLast? with
        | none => exact absurd (List.getLast?_eq_none_iff.mp hG) this
        | some z => exact ⟨z, rfl⟩
      obtain ⟨lastRow, hlastRow⟩ := hrowsne
      obtain ⟨ho, hh, hl, hc⟩ := hconv lastRow hlastRow
      -- the last bar's time is exactly the last row's month
      have h1 : lastRow.month ≤ lastBar.time := by
        obtain ⟨bb, hbb, hbbt⟩ := collectBodyBars_of_convertible _ lastRow
          (mem_getLast? _ _ hlastRow) ho hh hl hc
        have hbb' : bb ∈ bodyBarsOf (monthlyRowsOf monthly) := by
          rw [bodyBarsOf, BoxDetector.mem_sortByKey]
          exact hbb
        have hle : bb.time ≤ lastBar.time := pairwise_le_getLast (fun bar => bar.time) _
          (pairwise_sortByKey _ _) bb hbb' lastBar hlastBar
        omega
      have h2 : lastBar.time ≤ lastRow.month := by
        have hmem := mem_getLast? _ _ hlastBar
        rw [bodyBarsOf, BoxDetector.mem_sortByKey] at hmem
        obtain ⟨r, hr, hrt⟩ := collectBodyBars_time_mem _ lastBar hmem
        have hr' : r ∈ monthlyRowsOf monthly := hr
        have hle : r.month ≤ lastRow.month := pairwise_le_getLast (fun row => row.month) _
          (pairwise_sortByKey _ _) r hr' lastRow hlastRow
        omega
      have heq : lastBar.time = lastRow.month := le_antisymm h2 h1
      -- the box start is below the latest month
      have hstart : b.start ≤ lastRow.month := by
        rw [hbeq]
        simp only [bodyBoxFor]
        cases hw : suffixWindow (bodyBarsOf (monthlyRowsOf monthly)) L with
        | nil =>
          have : (suffixWindow (bodyBarsOf (monthlyRowsOf monthly)) L).length = L := by
            simp only [suffixWindow, List.length_drop]
            omega
          rw [hw] at this
          simp at this
          omega
        | cons hd tl =>
          have hmemw : hd ∈ suffixWindow (bodyBarsOf (monthlyRowsOf monthly)) L := by
            rw [hw]
            exact List.mem_cons_self _ _
          have hhd : hd ∈ bodyBarsOf (monthlyRowsOf monthly) :=
            List.mem_of_mem_drop (by simpa [suffixWindow] using hmemw)
          have hle : hd.time ≤ lastBar.time := pairwise_le_getLast (fun bar => bar.time) _
            (pairwise_sortByKey _ _) hd hhd lastBar hlastBar
          simp only [List.headD_cons]
          omega
      simp only [boxActiveOf, hbox, hlastRow]
      rw [if_pos ⟨hstart, by rw [← heq, ← hend]⟩]
    · intro hok hactive
      simp only [compute_stage_score] at hok ⊢
      split at hok
      · simp at hok
      · rename_i hmiss
        rw [if_neg hmiss]
        refine ⟨boxScoreOf daily monthly, ?_, ?_⟩
        · rfl
        · rw [boxScoreOf]
          by_cases hbk : breakoutUpOf daily monthly = true
          · rw [if_pos hbk]
            norm_num
          · rw [if_neg hbk, if_pos hactive]
            norm_num

/-- C10 (amended) witness: three fully convertible flat monthly rows. -/
theorem claim10_box_active_witness :
    (∃ lastBar, (bodyBarsOf (monthlyRowsOf
        [⟨1, some 10, some 10, some 10, some 10⟩, ⟨2, some 10, some 10, some 10, some 10⟩,
         ⟨3, some 10, some 10, some 10, some 10⟩])).getLast? = some lastBar ∧
      (⟨1, 3, 10, 10, 3, false, 0⟩ : BodyBox).end_ = lastBar.time) ∧
    ((∀ lastRow, (monthlyRowsOf
        [⟨1, some 10, some 10, some 10, some 10⟩, ⟨2, some 10, some 10, some 10, some 10⟩,
         ⟨3, some 10, some 10, some 10, some 10⟩]).getLast? = some lastRow →
        lastRow.o ≠ none ∧ lastRow.h ≠ none ∧ lastRow.l ≠ none ∧ lastRow.c ≠ none) →
      boxActiveOf
        [⟨1, some 10, some 10, some 10, some 10⟩, ⟨2, some 10, some 10, some 10, some 10⟩,
         ⟨3, some 10, some 10, some 10, some 10⟩] = true) ∧
    ((compute_stage_score []
        [⟨1, some 10, some 10, some 10, some 10⟩, ⟨2, some 10, some 10, some 10, some 10⟩,
         ⟨3, some 10, some 10, some 10, some 10⟩]).status = "OK" →
      boxActiveOf
        [⟨1, some 10, some 10, some 10, some 10⟩, ⟨2, some 10, some 10, some 10, some 10⟩,
         ⟨3, some 10, some 10, some 10, some 10⟩] = true →
      ∃ v, ((compute_stage_score []
        [⟨1, some 10, some 10, some 10, some 10⟩, ⟨2, some 10, some 10, some 10, some 10⟩,
         ⟨3, some 10, some 10, some 10, some 10⟩]).breakdown).lookup "box" = some v ∧
        8 ≤ v) :=
  claim10_box_active
    [⟨1, some 10, some 10, some 10, some 10⟩, ⟨2, some 10, some 10, some 10, some 10⟩,
     ⟨3, some 10, some 10, some 10, some 10⟩] [] ⟨1, 3, 10, 10, 3, false, 0⟩
    (by
      norm_num [boxOf, monthlyRowsOf, _detect_body_box, collectBodyBars, bodyBarsOf,
        sortByKey, insertByKey, bodyBoxGo, suffixRange, suffixUpper, suffixLower,
        suffixWindow, suffixWild, bodyBoxFor, defaultBodyBar, listMax, listMin,
        epsBase, abs, Option.some_ne_none])

end Ingest

/-! ## Claims C2 and C5 (scoring gate and stage rule) -/

/-- Membership in a conditional singleton segment. -/
theorem mem_ite_singleton {α : Type} (a b : α) (c : Prop) [Decidable c] :
    (a ∈ if c then [b] else []) ↔ (c ∧ a = b) := by
  split <;> simp_all

/-- `round(x, 3)` keeps a value inside `[0, 100]`. -/
theorem round3_bounds (q : ℚ) (h0 : 0 ≤ q) (h100 : q ≤ 100) :
    0 ≤ round3 q ∧ round3 q ≤ 100 := by
  rw [round3, round_eq]
  constructor
  · have h1 : (0 : ℤ) ≤ ⌊q * 1000 + 1/2⌋ := Int.floor_nonneg.mpr (by linarith)
    have h1' : (0 : ℚ) ≤ (⌊q * 1000 + 1/2⌋ : ℚ) := by exact_mod_cast h1
    linarith
  · have h2 : ⌊q * 1000 + 1/2⌋ ≤ 100000 := by
      have hle : q * 1000 + 1/2 ≤ (100000 : ℚ) + 1/2 := by linarith
      have hmono := Int.floor_le_floor hle
      have hhalf : ⌊((100000 : ℚ) + 1/2)⌋ = 100000 + ⌊(1/2 : ℚ)⌋ := by
        exact_mod_cast Int.floor_int_add 100000 (1/2 : ℚ)
      have hz : ⌊(1/2 : ℚ)⌋ = 0 := by
        rw [Int.floor_eq_zero_iff]
        constructor <;> norm_num
      omega
    have h2' : ((⌊q * 1000 + 1/2⌋ : ℤ) : ℚ) ≤ 100000 := by exact_mod_cast h2
    linarith

namespace Ingest

/-- The essential-data gate as a disjunction over its four tests. -/
theorem essentialMissing_iff (daily : List DRow) :
    essentialMissingOf daily = true ↔
      (lastCloseOf daily = none ∨ maLastOf daily 20 = none ∨
       maLastOf daily 60 = none ∨ (closesOf daily).length < 60) := by
  simp [essentialMissingOf, Option.isNone_iff_eq_none, or_assoc]

/-- C2: `compute_stage_score` returns a null score exactly on status
INSUFFICIENT_DATA, which holds iff the last close, MA20 or MA60 is
undefined or fewer than 60 closes exist; the stage is then UNKNOWN; the
gate's four missing-reason codes are each listed iff their condition
holds; and under status OK the score is a number within [0, 100]. -/
theorem claim2_score_gate (daily : List DRow) (monthly : List MRow) :
    ((compute_stage_score daily monthly).score = none ↔
      (compute_stage_score daily monthly).status = "INSUFFICIENT_DATA") ∧
    ((compute_stage_score daily monthly).status = "INSUFFICIENT_DATA" ↔
      (lastCloseOf daily = none ∨ maLastOf daily 20 = none ∨
       maLastOf daily 60 = none ∨ (closesOf daily).length < 60)) ∧
    ((compute_stage_score daily monthly).status = "INSUFFICIENT_DATA" →
      (compute_stage_score daily monthly).stage = "UNKNOWN") ∧
    ("missing_last_close" ∈ (compute_stage_score daily monthly).missingReasons ↔
      lastCloseOf daily = none) ∧
    ("insufficient_daily_bars" ∈ (compute_stage_score daily monthly).missingReasons ↔
      (closesOf daily).length < 60) ∧
    ("missing_ma20" ∈ (compute_stage_score daily monthly).missingReasons ↔
      maLastOf daily 20 = none) ∧
    ("missing_ma60" ∈ (compute_stage_score daily monthly).missingReasons ↔
      maLastOf daily 60 = none) ∧
    ((compute_stage_score daily monthly).status = "OK" →
      ∃ q, (compute_stage_score daily monthly).score = some q ∧ 0 ≤ q ∧ q ≤ 100) := by
  have hmr : (compute_stage_score daily monthly).missingReasons =
      missingReasonsOf daily monthly := by
    rw [compute_stage_score]
    split <;> rfl
  have h4 : "missing_last_close" ∈ missingReasonsOf daily monthly ↔
      lastCloseOf daily = none := by
    simp [missingReasonsOf, mem_ite_singleton, Option.isNone_iff_eq_none]
  have h5 : "insufficient_daily_bars" ∈ missingReasonsOf daily monthly ↔
      (closesOf daily).length < 60 := by
    simp [missingReasonsOf, mem_ite_singleton, Option.isNone_iff_eq_none]
  have h6 : "missing_ma20" ∈ missingReasonsOf daily monthly ↔
      maLastOf daily 20 = none := by
    simp [missingReasonsOf, mem_ite_singleton, Option.isNone_iff_eq_none]
  have h7 : "missing_ma60" ∈ missingReasonsOf daily monthly ↔
      maLastOf daily 60 = none := by
    simp [missingReasonsOf, mem_ite_singleton, Option.isNone_iff_eq_none]
  by_cases hm : essentialMissingOf daily = true
  · have hr : compute_stage_score daily monthly =
        ⟨"UNKNOWN", none, "INSUFFICIENT_DATA", missingReasonsOf daily monthly, []⟩ := by
      rw [compute_stage_score, if_pos hm]
    refine ⟨?_, ?_, ?_, ?_, ?_, ?_, ?_, ?_⟩
    · rw [hr]
      simp
    · rw [hr]
      exact iff_of_true rfl ((essentialMissing_iff daily).mp hm)
    · rw [hr]
      intro _
      rfl
    · rw [hmr]; exact h4
    · rw [hmr]; exact h5
    · rw [hmr]; exact h6
    · rw [hmr]; exact h7
    · rw [hr]
      intro hbad
      simp at hbad
  · have hr : compute_stage_score daily monthly =
        ⟨stageOf daily, some (round3 (clampedScoreOf daily monthly)), "OK",
          missingReasonsOf daily monthly, breakdownOf daily monthly⟩ := by
      rw [compute_stage_score, if_neg hm]
    refine ⟨?_, ?_, ?_, ?_, ?_, ?_, ?_, ?_⟩
    · rw [hr]
      simp
    · rw [hr]
      exact iff_of_false (by simp) (fun hd => hm ((essentialMissing_iff daily).mpr hd))
    · rw [hr]
      intro hbad
      simp at hbad
    · rw [hmr]; exact h4
    · rw [hmr]; exact h5
    · rw [hmr]; exact h6
    · rw [hmr]; exact h7
    · rw [hr]
      intro _
      refine ⟨round3 (clampedScoreOf daily monthly), rfl, ?_⟩
      have hq0 : 0 ≤ clampedScoreOf daily monthly := by
        rw [clampedScoreOf]
        exact le_max_left _ _
      have hq100 : clampedScoreOf daily monthly ≤ 100 := by
        rw [clampedScoreOf]
        exact max_le (by norm_num) (min_le_left _ _)
      exact round3_bounds _ hq0 hq100

/-- Modelled from the spec: the stage-C rule with the amendment that an
undefined slope60 is coalesced to 0 (the code's `(slope60 or 0) >= 0`). -/
def specStageC (daily : List DRow) : Prop :=
  ∃ u, up60Of daily = some u ∧
    (22 ≤ u ∨ ∃ lc m60, lastCloseOf daily = some lc ∧ maLastOf daily 60 = some m60 ∧
      m60 < lc ∧ 0 ≤ (slope60Of daily).getD 0)

/-- Modelled from the spec: the stage-C rule read strictly, requiring a
defined slope60 with slope60 ≥ 0. -/
def specStageCstrict (daily : List DRow) : Prop :=
  ∃ u, up60Of daily = some u ∧
    (22 ≤ u ∨ ∃ lc m60 s, lastCloseOf daily = some lc ∧ maLastOf daily 60 = some m60 ∧
      slope60Of daily = some s ∧ m60 < lc ∧ 0 ≤ s)

/-- Modelled from the spec: the stage-A rule. -/
def specStageA (daily : List DRow) : Prop :=
  ∃ d60 d20, down60Of daily = some d60 ∧ down20Of daily = some d20 ∧
    20 ≤ d60 ∧ 10 ≤ d20

/-- The boolean stage-C test agrees with the amended spec condition. -/
theorem stageCcondB_iff (daily : List DRow) :
    stageCcondB daily = true ↔ specStageC daily := by
  rw [stageCcondB, specStageC]
  cases hu : up60Of daily with
  | none => simp
  | some u =>
    cases hlc : lastCloseOf daily with
    | none => simp
    | some lc =>
      cases hm : maLastOf daily 60 with
      | none => simp
      | some m60 => simp

/-- The boolean stage-A test agrees with the spec condition. -/
theorem stageAcondB_iff (daily : List DRow) :
    stageAcondB daily = true ↔ specStageA daily := by
  rw [stageAcondB, specStageA]
  cases h60 : down60Of daily with
  | none => simp
  | some d60 =>
    cases h20 : down20Of daily with
    | none => simp
    | some d20 => simp

/-- 60 daily rows, dates descending, all closes 1 except the latest (2). -/
def demoDaily : List DRow :=
  [   ⟨59, some 2, none⟩,
   ⟨58, some 1, none⟩,
   ⟨57, some 1, none⟩,
   ⟨56, some 1, none⟩,
   ⟨55, some 1, none⟩,
   ⟨54, some 1, none⟩,
   ⟨53, some 1, none⟩,
   ⟨52, some 1, none⟩,
   ⟨51, some 1, none⟩,
   ⟨50, some 1, none⟩,
   ⟨49, some 1, none⟩,
   ⟨48, some 1, none⟩,
   ⟨47, some 1, none⟩,
   ⟨46, some 1, none⟩,
   ⟨45, some 1, none⟩,
   ⟨44, some 1, none⟩,
   ⟨43, some 1, none⟩,
   ⟨42, some 1, none⟩,
   ⟨41, some 1, none⟩,
   ⟨40, some 1, none⟩,
   ⟨39, some 1, none⟩,
   ⟨38, some 1, none⟩,
   ⟨37, some 1, none⟩,
   ⟨36, some 1, none⟩,
   ⟨35, some 1, none⟩,
   ⟨34, some 1, none⟩,
   ⟨33, some 1, none⟩,
   ⟨32, some 1, none⟩,
   ⟨31, some 1, none⟩,
   ⟨30, some 1, none⟩,
   ⟨29, some 1, none⟩,
   ⟨28, some 1, none⟩,
   ⟨27, some 1, none⟩,
   ⟨26, some 1, none⟩,
   ⟨25, some 1, none⟩,
   ⟨24, some 1, none⟩,
   ⟨23, some 1, none⟩,
   ⟨22, some 1, none⟩,
   ⟨21, some 1, none⟩,
   ⟨20, some 1, none⟩,
   ⟨19, some 1, none⟩,
   ⟨18, some 1, none⟩,
   ⟨17, some 1, none⟩,
   ⟨16, some 1, none⟩,
   ⟨15, some 1, none⟩,
   ⟨14, some 1, none⟩,
   ⟨13, some 1, none⟩,
   ⟨12, some 1, none⟩,
   ⟨11, some 1, none⟩,
   ⟨10, some 1, none⟩,
   ⟨9, some 1, none⟩,
   ⟨8, some 1, none⟩,
   ⟨7, some 1, none⟩,
   ⟨6, some 1, none⟩,
   ⟨5, some 1, none⟩,
   ⟨4, some 1, none⟩,
   ⟨3, some 1, none⟩,
   ⟨2, some 1, none⟩,
   ⟨1, some 1, none⟩,
   ⟨0, some 1, none⟩]

/-- The demo rows in date order. -/
theorem lem_demo_sorted : dailySorted demoDaily =
    [   ⟨0, some 1, none⟩,
   ⟨1, some 1, none⟩,
   ⟨2, some 1, none⟩,
   ⟨3, some 1, none⟩,
   ⟨4, some 1, none⟩,
   ⟨5, some 1, none⟩,
   ⟨6, some 1, none⟩,
   ⟨7, some 1, none⟩,
   ⟨8, some 1, none⟩,
   ⟨9, some 1, none⟩,
   ⟨10, some 1, none⟩,
   ⟨11, some 1, none⟩,
   ⟨12, some 1, none⟩,
   ⟨13, some 1, none⟩,
   ⟨14, some 1, none⟩,
   ⟨15, some 1, none⟩,
   ⟨16, some 1, none⟩,
   ⟨17, some 1, none⟩,
   ⟨18, some 1, none⟩,
   ⟨19, some 1, none⟩,
   ⟨20, some 1, none⟩,
   ⟨21, some 1, none⟩,
   ⟨22, some 1, none⟩,
   ⟨23, some 1, none⟩,
   ⟨24, some 1, none⟩,
   ⟨25, some 1, none⟩,
   ⟨26, some 1, none⟩,
   ⟨27, some 1, none⟩,
   ⟨28, some 1, none⟩,
   ⟨29, some 1, none⟩,
   ⟨30, some 1, none⟩,
   ⟨31, some 1, none⟩,
   ⟨32, some 1, none⟩,
   ⟨33, some 1, none⟩,
   ⟨34, some 1, none⟩,
   ⟨35, some 1, none⟩,
   ⟨36, some 1, none⟩,
   ⟨37, some 1, none⟩,
   ⟨38, some 1, none⟩,
   ⟨39, some 1, none⟩,
   ⟨40, some 1, none⟩,
   ⟨41, some 1, none⟩,
   ⟨42, some 1, none⟩,
   ⟨43, some 1, none⟩,
   ⟨44, some 1, none⟩,
   ⟨45, some 1, none⟩,
   ⟨46, some 1, none⟩,
   ⟨47, some 1, none⟩,
   ⟨48, some 1, none⟩,
   ⟨49, some 1, none⟩,
   ⟨50, some 1, none⟩,
   ⟨51, some 1, none⟩,
   ⟨52, some 1, none⟩,
   ⟨53, some 1, none⟩,
   ⟨54, some 1, none⟩,
   ⟨55, some 1, none⟩,
   ⟨56, some 1, none⟩,
   ⟨57, some 1, none⟩,
   ⟨58, some 1, none⟩,
   ⟨59, some 2, none⟩] := by
  norm_num [dailySorted, demoDaily, sortByKey, insertByKey]

/-- The demo closes: 59 flat bars then a jump. -/
theorem lem_demo_closes : closesOf demoDaily = [1, 1, 1, 1, 1, 1, 1, 1, 1, 1, 1, 1, 1, 1, 1, 1, 1, 1, 1, 1, 1, 1, 1, 1, 1, 1, 1, 1, 1, 1, 1, 1, 1, 1, 1, 1, 1, 1, 1, 1, 1, 1, 1, 1, 1, 1, 1, 1, 1, 1, 1, 1, 1, 1, 1, 1, 1, 1, 1, 2] := by
  rw [closesOf, lem_demo_sorted]
  norm_num [List.filterMap_cons]

set_option maxRecDepth 16384 in
/-- The demo MA20 series. -/
theorem lem_demo_ma20 : maSeriesOf demoDaily 20 =
    [none, none, none, none, none, none, none, none, none, none, none, none, none, none, none, none, none, none, none, some 1, some 1, some 1, some 1, some 1, some 1, some 1, some 1, some 1, some 1, some 1, some 1, some 1, some 1, some 1, some 1, some 1, some 1, some 1, some 1, some 1, some 1, some 1, some 1, some 1, some 1, some 1, some 1, some 1, some 1, some 1, some 1, some 1, some 1, some 1, some 1, some 1, some 1, some 1, some 1, some (21/20)] := by
  rw [maSeriesOf, lem_demo_closes, _build_ma_series, if_neg (by norm_num)]
  norm_num [maGoAux, List.getD, show (20 : ℤ).toNat = 20 from rfl]

set_option maxRecDepth 16384 in
/-- The demo MA60 series: only the final point exists. -/
theorem lem_demo_ma60 : maSeriesOf demoDaily 60 =
    [none, none, none, none, none, none, none, none, none, none, none, none, none, none, none, none, none, none, none, none, none, none, none, none, none, none, none, none, none, none, none, none, none, none, none, none, none, none, none, none, none, none, none, none, none, none, none, none, none, none, none, none, none, none, none, none, none, none, none, some (61/60)] := by
  rw [maSeriesOf, lem_demo_closes, _build_ma_series, if_neg (by norm_num)]
  norm_num [maGoAux, List.getD, show (60 : ℤ).toNat = 60 from rfl]

/-- The demo last close. -/
theorem lem_demo_lastclose : lastCloseOf demoDaily = some 2 := by
  rw [lastCloseOf, lem_demo_closes]
  norm_num [List.getLast?]

/-- The demo last MA20 value. -/
theorem lem_demo_ma20last : maLastOf demoDaily 20 = some (21/20) := by
  rw [maLastOf, lem_demo_ma20]
  norm_num [atFromEnd, List.get?]

/-- The demo last MA60 value. -/
theorem lem_demo_ma60last : maLastOf demoDaily 60 = some (61/60) := by
  rw [maLastOf, lem_demo_ma60]
  norm_num [atFromEnd, List.get?]

/-- The demo input passes the essential-data gate. -/
theorem lem_demo_gate : essentialMissingOf demoDaily = false := by
  rw [essentialMissingOf, lem_demo_lastclose, lem_demo_ma20last, lem_demo_ma60last,
    lem_demo_closes]
  norm_num

/-- The demo input's gate status is OK. -/
theorem lem_demo_status : (compute_stage_score demoDaily []).status = "OK" := by
  rw [compute_stage_score, if_neg (by simp [lem_demo_gate])]

/-- The demo input's MA60 up-streak is 1. -/
theorem lem_demo_up60 : up60Of demoDaily = some 1 := by
  rw [up60Of, lem_demo_closes, lem_demo_ma60]
  norm_num [_count_streak, streakStep, List.zip, List.zipWith]

/-- The demo input's slope60 is undefined. -/
theorem lem_demo_slope60 : slope60Of demoDaily = none := by
  rw [slope60Of, lem_demo_ma60]
  norm_num [slopeLastOf, atFromEnd, List.get?]

/-- The demo stage-C test passes (via the coalesced slope). -/
theorem lem_demo_stageC : stageCcondB demoDaily = true := by
  rw [stageCcondB, lem_demo_up60, lem_demo_lastclose, lem_demo_ma60last,
    lem_demo_slope60]
  norm_num

/-- The demo input is classified stage C. -/
theorem lem_demo_stage : (compute_stage_score demoDaily []).stage = "C" := by
  rw [compute_stage_score, if_neg (by simp [lem_demo_gate])]
  show stageOf demoDaily = "C"
  rw [stageOf, if_pos lem_demo_stageC]

/-- C5 (claim as stated is false): on 60 daily rows whose closes are flat
except a final jump, the gate passes and the code returns stage C although
the spec rule read strictly fails — the up-streak is 1 (< 22) and slope60
is undefined (only one MA60 point exists), so `close > MA60 and slope60 ≥ 0`
does not hold; the code coalesces the undefined slope to 0. -/
theorem claim5_counterexample :
    (compute_stage_score demoDaily []).status = "OK" ∧
    (compute_stage_score demoDaily []).stage = "C" ∧
    ¬ specStageCstrict demoDaily := by
  refine ⟨lem_demo_status, lem_demo_stage, ?_⟩
  rintro ⟨u, hu, hcase⟩
  rw [lem_demo_up60] at hu
  injection hu with hu
  rcases hcase with h22 | ⟨lc, m60, s, _, _, hs, _, _⟩
  · omega
  · rw [lem_demo_slope60] at hs
    exact Option.noConfusion hs

/-- C5 (amended): under a passing gate the stage follows the ordered,
mutually exclusive rule with the slope amendment: C iff up-streak(MA60) ≥ 22
or (last close > MA60 and the slope60-or-0 coalescing is ≥ 0); else A iff
down-streak(MA60) ≥ 20 and down-streak(MA20) ≥ 10; else B. -/
theorem claim5_stage_rule (daily : List DRow) (monthly : List MRow)
    (hok : (compute_stage_score daily monthly).status = "OK") :
    ((compute_stage_score daily monthly).stage = "C" ↔ specStageC daily) ∧
    ((compute_stage_score daily monthly).stage = "A" ↔
      (¬ specStageC daily ∧ specStageA daily)) ∧
    ((compute_stage_score daily monthly).stage = "B" ↔
      (¬ specStageC daily ∧ ¬ specStageA daily)) := by
  by_cases hm : essentialMissingOf daily = true
  · rw [compute_stage_score, if_pos hm] at hok
    simp at hok
  · have hr : (compute_stage_score daily monthly).stage = stageOf daily := by
      rw [compute_stage_score, if_neg hm]
    rw [hr, stageOf]
    by_cases hc : stageCcondB daily = true
    · rw [if_pos hc]
      refine ⟨?_, ?_, ?_⟩
      · exact iff_of_true rfl ((stageCcondB_iff daily).mp hc)
      · exact iff_of_false (by simp) (fun h => h.1 ((stageCcondB_iff daily).mp hc))
      · exact iff_of_false (by simp) (fun h => h.1 ((stageCcondB_iff daily).mp hc))
    · by_cases ha : stageAcondB daily = true
      · rw [if_neg hc, if_pos ha]
        refine ⟨?_, ?_, ?_⟩
        · exact iff_of_false (by simp) (fun h => hc ((stageCcondB_iff daily).mpr h))
        · exact iff_of_true rfl
            ⟨fun h => hc ((stageCcondB_iff daily).mpr h), (stageAcondB_iff daily).mp ha⟩
        · exact iff_of_false (by simp) (fun h => h.2 ((stageAcondB_iff daily).mp ha))
      · rw [if_neg hc, if_neg ha]
        refine ⟨?_, ?_, ?_⟩
        · exact iff_of_false (by simp) (fun h => hc ((stageCcondB_iff daily).mpr h))
        · exact iff_of_false (by simp) (fun h => ha ((stageAcondB_iff daily).mpr h.2))
        · exact iff_of_true rfl
            ⟨fun h => hc ((stageCcondB_iff daily).mpr h),
             fun h => ha ((stageAcondB_iff daily).mpr h)⟩

/-- C5 (amended) witness: the demo input, whose gate status is OK. -/
theorem claim5_stage_rule_witness :
    ((compute_stage_score demoDaily []).stage = "C" ↔ specStageC demoDaily) ∧
    ((compute_stage_score demoDaily []).stage = "A" ↔
      (¬ specStageC demoDaily ∧ specStageA demoDaily)) ∧
    ((compute_stage_score demoDaily []).stage = "B" ↔
      (¬ specStageC demoDaily ∧ ¬ specStageA demoDaily)) :=
  claim5_stage_rule demoDaily [] lem_demo_status

end Ingest

/-! ## Claim C8 (main.py ranking scorer) -/

/-- Stable insertion for Python's `list.sort(key=..., reverse=True)`:
`b` goes after every entry whose key is `≥ key b`. -/
def insertByQKeyDesc {α : Type} (key : α → ℚ) (b : α) : List α → List α
  | [] => [b]
  | x :: xs => if key b ≤ key x then x :: insertByQKeyDesc key b xs else b :: x :: xs

/-- Python's stable descending sort by a rational key. -/
def sortByQKeyDesc {α : Type} (key : α → ℚ) (l : List α) : List α :=
  l.foldl (fun acc b => insertByQKeyDesc key b acc) []

theorem mem_insertByQKeyDesc {α : Type} (key : α → ℚ) (b y : α) :
    ∀ l : List α, y ∈ insertByQKeyDesc key b l ↔ y = b ∨ y ∈ l := by
  intro l
  induction l with
  | nil => simp [insertByQKeyDesc]
  | cons h t ih =>
    simp only [insertByQKeyDesc]
    split
    · simp only [List.mem_cons, ih]
      tauto
    · simp only [List.mem_cons]

theorem pairwise_insertByQKeyDesc {α : Type} (key : α → ℚ) (b : α) :
    ∀ l : List α, l.Pairwise (fun x y => key y ≤ key x) →
      (insertByQKeyDesc key b l).Pairwise (fun x y => key y ≤ key x) := by
  intro l
  induction l with
  | nil => intro _; simp [insertByQKeyDesc]
  | cons h t ih =>
    intro hp
    obtain ⟨hhead, htail⟩ := List.pairwise_cons.mp hp
    simp only [insertByQKeyDesc]
    split
    · rename_i hle
      refine List.pairwise_cons.mpr ⟨?_, ih htail⟩
      intro y hy
      rcases (mem_insertByQKeyDesc key b y t).mp hy with rfl | hy'
      · exact hle
      · exact hhead y hy'
    · rename_i hgt
      refine List.pairwise_cons.mpr ⟨?_, hp⟩
      intro y hy
      have hbx : key h ≤ key b := le_of_not_le hgt
      rcases List.mem_cons.mp hy with rfl | hy'
      · exact hbx
      · exact le_trans (hhead y hy') hbx

theorem pairwise_sortByQKeyDesc_aux {α : Type} (key : α → ℚ) :
    ∀ (l acc : List α), acc.Pairwise (fun x y => key y ≤ key x) →
      (l.foldl (fun acc b => insertByQKeyDesc key b acc) acc).Pairwise
        (fun x y => key y ≤ key x) := by
  intro l
  induction l with
  | nil => intro acc h; exact h
  | cons h t ih =>
    intro acc hacc
    exact ih _ (pairwise_insertByQKeyDesc key h acc hacc)

theorem pairwise_sortByQKeyDesc {α : Type} (key : α → ℚ) (l : List α) :
    (sortByQKeyDesc key l).Pairwise (fun x y => key y ≤ key x) :=
  pairwise_sortByQKeyDesc_aux key l [] (by simp)

/-- A truncated mapped take never exceeds the cut. -/
theorem take_map_len {α β : Type} (f : α → β) (l : List α) (k : ℕ) :
    ((l.take k).map f).length ≤ k := by
  rw [List.length_map, List.length_take]
  exact min_le_left _ _

namespace Rank

/-- A daily candidate row: the 6-tuple `(date, open, high, low, close,
volume)` read by `_score_weekly_candidate`; only the volume slot is
nullable there (`row[5] is not None` check). -/
structure WRow where
  date : Int
  o : ℚ
  h : ℚ
  l : ℚ
  c : ℚ
  v : Option ℚ
deriving DecidableEq, Repr

/-- The dict-overwrite pattern `by_date[key] = row`: keep the last
occurrence of each key. -/
def keepLastByKey {α : Type} (key : α → Int) (l : List α) : List α :=
  l.foldl (fun acc r => acc.filter (fun x => key x ≠ key r) ++ [r]) []

/-- `_normalize_daily_rows(rows, as_of)`: drop rows past `as_of`, dedupe by
date keeping the last occurrence, return in ascending date order. -/
def _normalize_daily_rows (rows : List WRow) (as_of : Option Int) : List WRow :=
  sortByKey (fun r => r.date)
    (keepLastByKey (fun r => r.date)
      (rows.filter (fun r => match as_of with
        | some a => decide (r.date ≤ a)
        | none => true)))

/-- `_normalize_monthly_rows(rows, as_of_month)` on the monthly 5-tuples. -/
def _normalize_monthly_rows (rows : List Ingest.MRow) (as_of_month : Option Int) :
    List Ingest.MRow :=
  sortByKey (fun r => r.month)
    (keepLastByKey (fun r => r.month)
      (rows.filter (fun r => match as_of_month with
        | some a => decide (r.month ≤ a)
        | none => true)))

/-- The true-range loop of `_compute_atr` (`prev_close` threading). -/
def trsGo : List (ℚ × ℚ × ℚ) → ℚ → List ℚ
  | [], _ => []
  | (hi, lo, cl) :: rest, prev =>
    max (hi - lo) (max |hi - prev| |lo - prev|) :: trsGo rest cl

/-- `_compute_atr(highs, lows, closes, period)`.  The outer `Option` is
the exception monad: with `period = 0` the window guard passes
(`trs[-0:]` is the whole list) and `sum(window) / period` raises
`ZeroDivisionError`, modelled as the outer `none`; `some none` is
Python's returned `None`. -/
def _compute_atr (highs lows closes : List ℚ) (period : ℕ) :
    Option (Option ℚ) :=
  if closes.length < 2 ∨ closes.length ≠ highs.length ∨
      closes.length ≠ lows.length then some none
  else
    let trs := trsGo (highs.zip (lows.zip closes)) (closes.headD 0)
    if trs.length < period then some none
    else if period = 0 then none
    else some (some ((trs.drop (trs.length - period)).sum / (period : ℚ)))

/-- The shared tail of `_compute_volume_ratio`: average the window,
reject a non-positive average, divide the latest volume by it. -/
def volRatioCore (window volumes : List ℚ) (period : ℕ) : Option ℚ :=
  let avg := window.sum / (period : ℚ)
  if avg ≤ 0 then none else some (volumes.getLastD 0 / avg)

/-- `_compute_volume_ratio(volumes, period, include_latest)` (main.py
three-argument version). -/
def _compute_volume_ratio (volumes : List ℚ) (period : ℕ) (include_latest : Bool) :
    Option ℚ :=
  if period = 0 then none
  else if include_latest then
    if volumes.length < period then none
    else volRatioCore (volumes.drop (volumes.length - period)) volumes period
  else
    if volumes.length < period + 1 then none
    else volRatioCore ((volumes.drop (volumes.length - period - 1)).take period)
      volumes period

/-- `_calc_slope(values, lookback)`. -/
def _calc_slope (values : List (Option ℚ)) (lookback : ℕ) : Option ℚ :=
  if lookback = 0 ∨ values.length ≤ lookback then none
  else
    match (values.get? (values.length - 1)).getD none,
        (values.get? (values.length - 1 - lookback)).getD none with
    | some cur, some past => some (cur - past)
    | _, _ => none

/-- `_calc_recent_bounds(highs, lows, lookback)`. -/
def _calc_recent_bounds (highs lows : List ℚ) (lookback : ℕ) :
    Option ℚ × Option ℚ :=
  if highs = [] ∨ lows = [] then (none, none)
  else if lookback = 0 then (some (listMax highs), some (listMin lows))
  else
    (some (listMax (highs.drop (highs.length - lookback))),
     some (listMin (lows.drop (lows.length - lookback))))

/-- The configuration values the two scorers read (`_get_config_value` /
`dict.get`, each slot defaulting in the code when absent); arbitrary field
values cover every configuration, including the documented defaults
(min_daily_bars 80, slope_lookback 3, atr_period 14, volume_period 20,
trigger_lookback 20, max_reasons 6, monthly min/max months 3/14, range cap
0.2, wild wick 0.1, near edge 4.0). -/
structure RankConfig where
  min_daily_bars : ℕ
  slope_lookback : ℕ
  atr_period : ℕ
  volume_period : ℕ
  include_latest : Bool
  trigger_lookback : ℕ
  max_reasons : ℕ
  w_ma_alignment : ℚ
  w_pullback_above_ma20 : ℚ
  w_volume_spike : ℚ
  w_near_high_break : ℚ
  w_slope_up : ℚ
  w_big_bull_candle : ℚ
  w_ma20_support : ℚ
  t_pullback_down7_min : ℤ
  t_pullback_down7_max : ℤ
  t_slope_min : ℚ
  t_volume_ratio : ℚ
  t_near_break_pct : ℚ
  t_big_candle_atr : ℚ
  t_ma20_distance_pct : ℚ
  d_ma_alignment : ℚ
  d_pullback_below_ma20 : ℚ
  d_volume_spike : ℚ
  d_near_low_break : ℚ
  d_slope_down : ℚ
  d_big_bear_candle : ℚ
  d_ma20_resistance : ℚ
  dt_pullback_up7_min : ℤ
  dt_pullback_up7_max : ℤ
  dt_slope_max : ℚ
  dt_volume_ratio : ℚ
  dt_near_break_pct : ℚ
  dt_big_candle_atr : ℚ
  dt_ma20_distance_pct : ℚ
  m_min_months : ℕ
  m_max_months : ℕ
  m_max_range_pct : ℚ
  m_wild_wick_pct : ℚ
  m_near_edge_pct : ℚ
  m_box_months : ℚ
  m_near_edge : ℚ
  m_wild_penalty : ℚ

/-- The reason labels pushed by the scorers; f-string payloads are carried
as data (the up/down volume-spike and MA20-proximity labels share one text
in the source and share one constructor here). -/
inductive RLabel where
  | maAlignUp
  | pullbackUp (bars : ℤ)
  | volumeSpike (ratio : ℚ)
  | nearHighBreak (pct : ℚ)
  | slopeUp
  | bigBullCandle
  | ma20Near (pct : ℚ)
  | maAlignDown
  | pullbackDown (bars : ℤ)
  | nearLowBreak (pct : ℚ)
  | slopeDown
  | bigBearCandle
  | boxMonths (months : ℕ)
  | nearEdgeUp (pct : ℚ)
  | nearEdgeDown (pct : ℚ)
  | wildBox
deriving DecidableEq, Repr

/-- The badge labels (again, texts shared between axes share a
constructor). -/
inductive RBadge where
  | maAligned
  | pullback
  | volumeUp
  | nearHigh
  | maUp
  | strongBull
  | ma20Close
  | maInverted
  | rebound
  | nearLow
  | maDown
  | strongBear
deriving DecidableEq, Repr

/-- `push_reason`: append only when the weight is truthy (nonzero). -/
def pushReason (target : List (ℚ × RLabel)) (weight : ℚ) (label : RLabel) :
    List (ℚ × RLabel) :=
  if weight = 0 then target else target ++ [(weight, label)]

/-- `push_badge`: append when not already present. -/
def pushBadge (target : List RBadge) (label : RBadge) : List RBadge :=
  if label ∈ target then target else target ++ [label]

def nrowsOf (rows : List WRow) (as_of : Option Int) : List WRow :=
  _normalize_daily_rows rows as_of

def opensW (rows : List WRow) (as_of : Option Int) : List ℚ :=
  (nrowsOf rows as_of).map (fun r => r.o)
def highsW (rows : List WRow) (as_of : Option Int) : List ℚ :=
  (nrowsOf rows as_of).map (fun r => r.h)
def lowsW (rows : List WRow) (as_of : Option Int) : List ℚ :=
  (nrowsOf rows as_of).map (fun r => r.l)
def closesW (rows : List WRow) (as_of : Option Int) : List ℚ :=
  (nrowsOf rows as_of).map (fun r => r.c)
def volumesW (rows : List WRow) (as_of : Option Int) : List ℚ :=
  (nrowsOf rows as_of).map (fun r => r.v.getD 0)

/-- `close = closes[-1] if closes else None`. -/
def closeW (rows : List WRow) (as_of : Option Int) : Option ℚ :=
  (closesW rows as_of).getLast?

def ma7S (rows : List WRow) (as_of : Option Int) : List (Option ℚ) :=
  _build_ma_series (closesW rows as_of) 7
def ma20S (rows : List WRow) (as_of : Option Int) : List (Option ℚ) :=
  _build_ma_series (closesW rows as_of) 20
def ma60S (rows : List WRow) (as_of : Option Int) : List (Option ℚ) :=
  _build_ma_series (closesW rows as_of) 60

def ma7W (rows : List WRow) (as_of : Option Int) : Option ℚ :=
  Ingest.atFromEnd (ma7S rows as_of) 1
def ma20W (rows : List WRow) (as_of : Option Int) : Option ℚ :=
  Ingest.atFromEnd (ma20S rows as_of) 1
def ma60W (rows : List WRow) (as_of : Option Int) : Option ℚ :=
  Ingest.atFromEnd (ma60S rows as_of) 1

def slope20W (cfg : RankConfig) (rows : List WRow) (as_of : Option Int) : Option ℚ :=
  _calc_slope (ma20S rows as_of) cfg.slope_lookback
def atr14W (cfg : RankConfig) (rows : List WRow) (as_of : Option Int) :
    Option (Option ℚ) :=
  _compute_atr (highsW rows as_of) (lowsW rows as_of) (closesW rows as_of)
    cfg.atr_period
def volRatioW (cfg : RankConfig) (rows : List WRow) (as_of : Option Int) : Option ℚ :=
  _compute_volume_ratio (volumesW rows as_of) cfg.volume_period cfg.include_latest

def up7W (rows : List WRow) (as_of : Option Int) : Option ℤ :=
  _count_streak (closesW rows as_of) (ma7S rows as_of) "up"
def down7W (rows : List WRow) (as_of : Option Int) : Option ℤ :=
  _count_streak (closesW rows as_of) (ma7S rows as_of) "down"

def recentHighW (cfg : RankConfig) (rows : List WRow) (as_of : Option Int) : Option ℚ :=
  (_calc_recent_bounds (highsW rows as_of) (lowsW rows as_of) cfg.trigger_lookback).1
def recentLowW (cfg : RankConfig) (rows : List WRow) (as_of : Option Int) : Option ℚ :=
  (_calc_recent_bounds (highsW rows as_of) (lowsW rows as_of) cfg.trigger_lookback).2

/-- `break_up_pct` (set only when recent_high exists and close is truthy). -/
def breakUpPctW (cfg : RankConfig) (rows : List WRow) (as_of : Option Int)
    (c : ℚ) : Option ℚ :=
  match recentHighW cfg rows as_of with
  | some rh => if c ≠ 0 then some (max 0 ((rh - c) / c * 100)) else none
  | none => none

/-- `break_down_pct`. -/
def breakDownPctW (cfg : RankConfig) (rows : List WRow) (as_of : Option Int)
    (c : ℚ) : Option ℚ :=
  match recentLowW cfg rows as_of with
  | some rl => if c ≠ 0 then some (max 0 ((c - rl) / c * 100)) else none
  | none => none

def openLastW (rows : List WRow) (as_of : Option Int) : ℚ :=
  (opensW rows as_of).getLastD 0

/-- One axis accumulator: running score, weighted reasons, badges. -/
structure AxisAcc where
  score : ℚ
  reasons : List (ℚ × RLabel)
  badges : List RBadge
deriving DecidableEq, Repr

/-- One signal block: on fire, add the weight to the score, push the
reason, push the badge. -/
def addSignal (acc : AxisAcc) (fire : Bool) (weight : ℚ) (label : RLabel)
    (badge : RBadge) : AxisAcc :=
  if fire then
    ⟨acc.score + weight, pushReason acc.reasons weight label,
      pushBadge acc.badges badge⟩
  else acc

def upFire1 (c m20 m60 : ℚ) : Bool := decide (m20 < c) && decide (m60 < m20)

def upFire2 (cfg : RankConfig) (rows : List WRow) (as_of : Option Int)
    (c m20 : ℚ) : Bool :=
  decide (m20 < c) &&
    (match down7W rows as_of with
     | some d => decide (cfg.t_pullback_down7_min ≤ d ∧ d ≤ cfg.t_pullback_down7_max)
     | none => false) &&
    (match slope20W cfg rows as_of with
     | none => true
     | some s => decide (cfg.t_slope_min ≤ s))

def upFire3 (cfg : RankConfig) (rows : List WRow) (as_of : Option Int) : Bool :=
  match volRatioW cfg rows as_of with
  | some r => decide (cfg.t_volume_ratio ≤ r)
  | none => false

def upFire4 (cfg : RankConfig) (rows : List WRow) (as_of : Option Int)
    (c : ℚ) : Bool :=
  match breakUpPctW cfg rows as_of c with
  | some p => decide (p ≤ cfg.t_near_break_pct)
  | none => false

def upFire5 (cfg : RankConfig) (rows : List WRow) (as_of : Option Int) : Bool :=
  match slope20W cfg rows as_of with
  | some s => decide (cfg.t_slope_min ≤ s)
  | none => false

def upFire6 (cfg : RankConfig) (rows : List WRow) (as_of : Option Int)
    (c : ℚ) (atr : Option ℚ) : Bool :=
  match atr with
  | some a =>
    decide (a * cfg.t_big_candle_atr ≤ |c - openLastW rows as_of|) &&
      decide (openLastW rows as_of < c)
  | none => false

def upFire7 (cfg : RankConfig) (c m20 : ℚ) : Bool :=
  decide (m20 ≠ 0) && decide (m20 ≤ c) &&
    decide (|c - m20| / m20 * 100 ≤ cfg.t_ma20_distance_pct)

def downFire1 (c m20 m60 : ℚ) : Bool := decide (c < m20) && decide (m20 < m60)

def downFire2 (cfg : RankConfig) (rows : List WRow) (as_of : Option Int)
    (c m20 : ℚ) : Bool :=
  decide (c < m20) &&
    (match up7W rows as_of with
     | some u => decide (cfg.dt_pullback_up7_min ≤ u ∧ u ≤ cfg.dt_pullback_up7_max)
     | none => false) &&
    (match slope20W cfg rows as_of with
     | none => true
     | some s => decide (s ≤ cfg.dt_slope_max))

def downFire3 (cfg : RankConfig) (rows : List WRow) (as_of : Option Int) : Bool :=
  match volRatioW cfg rows as_of with
  | some r => decide (cfg.dt_volume_ratio ≤ r)
  | none => false

def downFire4 (cfg : RankConfig) (rows : List WRow) (as_of : Option Int)
    (c : ℚ) : Bool :=
  match breakDownPctW cfg rows as_of c with
  | some p => decide (p ≤ cfg.dt_near_break_pct)
  | none => false

def downFire5 (cfg : RankConfig) (rows : List WRow) (as_of : Option Int) : Bool :=
  match slope20W cfg rows as_of with
  | some s => decide (s ≤ cfg.dt_slope_max)
  | none => false

def downFire6 (cfg : RankConfig) (rows : List WRow) (as_of : Option Int)
    (c : ℚ) (atr : Option ℚ) : Bool :=
  match atr with
  | some a =>
    decide (a * cfg.dt_big_candle_atr ≤ |c - openLastW rows as_of|) &&
      decide (c < openLastW rows as_of)
  | none => false

def downFire7 (cfg : RankConfig) (c m20 : ℚ) : Bool :=
  decide (m20 ≠ 0) && decide (c ≤ m20) &&
    decide (|c - m20| / m20 * 100 ≤ cfg.dt_ma20_distance_pct)

/-- The up-axis accumulation, in source order. -/
def upAccOf (cfg : RankConfig) (rows : List WRow) (as_of : Option Int)
    (c m20 m60 : ℚ) (atr : Option ℚ) : AxisAcc :=
  let a1 := addSignal ⟨0, [], []⟩ (upFire1 c m20 m60) cfg.w_ma_alignment
    RLabel.maAlignUp RBadge.maAligned
  let a2 := addSignal a1 (upFire2 cfg rows as_of c m20) cfg.w_pullback_above_ma20
    (RLabel.pullbackUp ((down7W rows as_of).getD 0)) RBadge.pullback
  let a3 := addSignal a2 (upFire3 cfg rows as_of) cfg.w_volume_spike
    (RLabel.volumeSpike ((volRatioW cfg rows as_of).getD 0)) RBadge.volumeUp
  let a4 := addSignal a3 (upFire4 cfg rows as_of c) cfg.w_near_high_break
    (RLabel.nearHighBreak ((breakUpPctW cfg rows as_of c).getD 0)) RBadge.nearHigh
  let a5 := addSignal a4 (upFire5 cfg rows as_of) cfg.w_slope_up
    RLabel.slopeUp RBadge.maUp
  let a6 := addSignal a5 (upFire6 cfg rows as_of c atr) cfg.w_big_bull_candle
    RLabel.bigBullCandle RBadge.strongBull
  addSignal a6 (upFire7 cfg c m20) cfg.w_ma20_support
    (RLabel.ma20Near (|c - m20| / m20 * 100)) RBadge.ma20Close

/-- The down-axis accumulation, in source order. -/
def downAccOf (cfg : RankConfig) (rows : List WRow) (as_of : Option Int)
    (c m20 m60 : ℚ) (atr : Option ℚ) : AxisAcc :=
  let a1 := addSignal ⟨0, [], []⟩ (downFire1 c m20 m60) cfg.d_ma_alignment
    RLabel.maAlignDown RBadge.maInverted
  let a2 := addSignal a1 (downFire2 cfg rows as_of c m20) cfg.d_pullback_below_ma20
    (RLabel.pullbackDown ((up7W rows as_of).getD 0)) RBadge.rebound
  let a3 := addSignal a2 (downFire3 cfg rows as_of) cfg.d_volume_spike
    (RLabel.volumeSpike ((volRatioW cfg rows as_of).getD 0)) RBadge.volumeUp
  let a4 := addSignal a3 (downFire4 cfg rows as_of c) cfg.d_near_low_break
    (RLabel.nearLowBreak ((breakDownPctW cfg rows as_of c).getD 0)) RBadge.nearLow
  let a5 := addSignal a4 (downFire5 cfg rows as_of) cfg.d_slope_down
    RLabel.slopeDown RBadge.maDown
  let a6 := addSignal a5 (downFire6 cfg rows as_of c atr) cfg.d_big_bear_candle
    RLabel.bigBearCandle RBadge.strongBear
  addSignal a6 (downFire7 cfg c m20) cfg.d_ma20_resistance
    (RLabel.ma20Near (|c - m20| / m20 * 100)) RBadge.ma20Close

/-- The item fields the claims touch (presentational fields — code, name,
levels, series, chart hints — are constants of the input and omitted). -/
structure WItem where
  total_score : ℚ
  reasons : List RLabel
  badges : List RBadge
deriving DecidableEq, Repr

/-- `total_score`/`reasons`/`badges` assembly: sort the weighted reasons
descending (stable), truncate both lists to `max_reasons`, keep labels. -/
def itemOfAcc (cfg : RankConfig) (acc : AxisAcc) : WItem :=
  { total_score := round3 acc.score
    reasons := ((sortByQKeyDesc (fun p => p.1) acc.reasons).take
      cfg.max_reasons).map Prod.snd
    badges := acc.badges.take cfg.max_reasons }

/-- `_score_weekly_candidate(code, name, rows, config, as_of)`:
the `(up_item, down_item, err)` triple as an `Except`; the outer `Option`
is the exception monad (the `atr14` line raises on a zero ATR period). -/
def _score_weekly_candidate (cfg : RankConfig) (rows : List WRow)
    (as_of : Option Int) : Option (Except String (WItem × WItem)) :=
  if (nrowsOf rows as_of).length < cfg.min_daily_bars then
    some (Except.error "insufficient_daily_bars")
  else
    match closeW rows as_of with
    | none => some (Except.error "missing_close")
    | some c =>
      match ma20W rows as_of, ma60W rows as_of with
      | some m20, some m60 =>
        match atr14W cfg rows as_of with
        | none => none
        | some atr =>
          some (Except.ok (itemOfAcc cfg (upAccOf cfg rows as_of c m20 m60 atr),
            itemOfAcc cfg (downAccOf cfg rows as_of c m20 m60 atr)))
      | _, _ => some (Except.error "missing_ma")

/-- The box dict of main.py's `_detect_body_box` (adds `last_close`). -/
structure MBox where
  start : Int
  end_ : Int
  upper : ℚ
  lower : ℚ
  months : ℕ
  range_pct : ℚ
  wild : Bool
  last_close : ℚ
deriving DecidableEq, Repr

/-- The wild-wick flag with the configured percentage. -/
def mWild (bars : List Ingest.BodyBar) (L : ℕ) (wickPct : ℚ) : Bool :=
  (Ingest.suffixWindow bars L).any fun b =>
    decide (Ingest.suffixUpper bars L * (1 + wickPct) < b.high) ||
    decide (b.low < Ingest.suffixLower bars L * (1 - wickPct))

def mBoxFor (bars : List Ingest.BodyBar) (L : ℕ) (wickPct : ℚ) : MBox :=
  { start := ((Ingest.suffixWindow bars L).headD Ingest.defaultBodyBar).time
    end_ := ((Ingest.suffixWindow bars L).getLastD Ingest.defaultBodyBar).time
    upper := Ingest.suffixUpper bars L
    lower := Ingest.suffixLower bars L
    months := L
    range_pct := Ingest.suffixRange bars L
    wild := mWild bars L wickPct
    last_close := ((Ingest.suffixWindow bars L).getLastD Ingest.defaultBodyBar).close }

/-- The countdown loop of main.py's `_detect_body_box` with configured
bounds. -/
def mBoxGo (bars : List Ingest.BodyBar) (minM : ℕ) (cap wickPct : ℚ) :
    ℕ → Option MBox
  | 0 => none
  | L + 1 =>
    if L + 1 < minM then none
    else if cap < Ingest.suffixRange bars (L + 1) then mBoxGo bars minM cap wickPct L
    else some (mBoxFor bars (L + 1) wickPct)

/-- The `length = 0` iteration Python's `range(max_months, -1, -1)`
reaches when `min_months = 0`: `bars[-0:]` is the whole list, and the
returned dict carries `months = 0` with the full-list bounds. -/
def mBoxZero (bars : List Ingest.BodyBar) (wickPct : ℚ) : MBox :=
  { mBoxFor bars bars.length wickPct with months := 0 }

/-- `_detect_body_box(monthly_rows, config)` (main.py).  The outer
`Option` is the exception monad: with `min_months = 0` and no convertible
bar, the `length = 0` window is empty and `max()` raises, modelled as the
outer `none`; `some none` is Python's returned `None`. -/
def _detect_body_box (cfg : RankConfig) (rows : List Ingest.MRow) :
    Option (Option MBox) :=
  if (Ingest.collectBodyBars rows).length < cfg.m_min_months then some none
  else
    match mBoxGo (Ingest.bodyBarsOf rows) cfg.m_min_months cfg.m_max_range_pct
        cfg.m_wild_wick_pct (min cfg.m_max_months (Ingest.bodyBarsOf rows).length) with
    | some box => some (some box)
    | none =>
      if cfg.m_min_months = 0 then
        if Ingest.bodyBarsOf rows = [] then none
        else if cfg.m_max_range_pct <
            Ingest.suffixRange (Ingest.bodyBarsOf rows) (Ingest.bodyBarsOf rows).length then
          some none
        else some (some (mBoxZero (Ingest.bodyBarsOf rows) cfg.m_wild_wick_pct))
      else some none

def mBreakUpPct (box : MBox) : Option ℚ :=
  if box.last_close ≠ 0 then
    some (max 0 ((box.upper - box.last_close) / box.last_close * 100))
  else none

def mBreakDownPct (box : MBox) : Option ℚ :=
  if box.last_close ≠ 0 then
    some (max 0 ((box.last_close - box.lower) / box.last_close * 100))
  else none

def mEdgePct (box : MBox) : Option ℚ :=
  match mBreakUpPct box, mBreakDownPct box with
  | some u, some d => some (min u d)
  | _, _ => none

/-- The monthly reason pairs, in source append order. -/
def mReasons (cfg : RankConfig) (box : MBox) : List (ℚ × RLabel) :=
  (if cfg.m_box_months ≠ 0 then [(cfg.m_box_months, RLabel.boxMonths box.months)]
   else []) ++
  (match mEdgePct box, mBreakUpPct box, mBreakDownPct box with
   | some e, some u, some d =>
     if e ≤ cfg.m_near_edge_pct then
       if u ≤ d then [(cfg.m_near_edge, RLabel.nearEdgeUp u)]
       else [(cfg.m_near_edge, RLabel.nearEdgeDown d)]
     else []
   | _, _, _ => []) ++
  (if box.wild = true ∧ cfg.m_wild_penalty ≠ 0 then
    [(cfg.m_wild_penalty, RLabel.wildBox)]
   else [])

/-- The monthly score accumulation. -/
def mScore (cfg : RankConfig) (box : MBox) : ℚ :=
  (if cfg.m_box_months ≠ 0 then cfg.m_box_months * (box.months : ℚ) else 0) +
  (match mEdgePct box with
   | some e =>
     if e ≤ cfg.m_near_edge_pct then
       cfg.m_near_edge *
         (if cfg.m_near_edge_pct ≠ 0 then 1 - e / cfg.m_near_edge_pct else 1)
     else 0
   | none => 0) +
  (if box.wild = true ∧ cfg.m_wild_penalty ≠ 0 then cfg.m_wild_penalty else 0)

/-- The monthly item fields the claims touch. -/
structure MItem where
  total_score : ℚ
  reasons : List RLabel
deriving DecidableEq, Repr

/-- `_score_monthly_candidate(code, name, rows, config, as_of_month)`;
the outer `Option` is the exception monad (propagating the
`_detect_body_box` raise). -/
def _score_monthly_candidate (cfg : RankConfig) (rows : List Ingest.MRow)
    (as_of_month : Option Int) : Option (Except String MItem) :=
  if (_normalize_monthly_rows rows as_of_month).length < cfg.m_min_months then
    some (Except.error "insufficient_monthly_bars")
  else
    match _detect_body_box cfg (_normalize_monthly_rows rows as_of_month) with
    | none => none
    | some none => some (Except.error "no_box")
    | some (some box) =>
      some (Except.ok
        { total_score := round3 (mScore cfg box)
          reasons := ((sortByQKeyDesc (fun p => p.1) (mReasons cfg box)).take
            cfg.max_reasons).map Prod.snd })

/-- C8: every item emitted by the weekly scorer (both axes) and the
monthly scorer carries a reasons list equal to the label projection of the
weight-descending (stable) sort of the actually accumulated
(weight, label) pairs, truncated to `common.max_reasons` entries — so the
reasons follow the contributing signals' weights in descending order and
never exceed the configured count. -/
theorem claim8_reasons_sorted (cfg : RankConfig) (rows : List WRow)
    (as_of : Option Int) (mrows : List Ingest.MRow) (as_of_month : Option Int) :
    (∀ up down,
      _score_weekly_candidate cfg rows as_of = some (Except.ok (up, down)) →
      ∃ c m20 m60 atr,
        closeW rows as_of = some c ∧
        ma20W rows as_of = some m20 ∧
        ma60W rows as_of = some m60 ∧
        atr14W cfg rows as_of = some atr ∧
        up.reasons = ((sortByQKeyDesc (fun p => p.1)
          (upAccOf cfg rows as_of c m20 m60 atr).reasons).take
            cfg.max_reasons).map Prod.snd ∧
        (sortByQKeyDesc (fun p => p.1)
          (upAccOf cfg rows as_of c m20 m60 atr).reasons).Pairwise
            (fun a b => b.1 ≤ a.1) ∧
        up.reasons.length ≤ cfg.max_reasons ∧
        down.reasons = ((sortByQKeyDesc (fun p => p.1)
          (downAccOf cfg rows as_of c m20 m60 atr).reasons).take
            cfg.max_reasons).map Prod.snd ∧
        (sortByQKeyDesc (fun p => p.1)
          (downAccOf cfg rows as_of c m20 m60 atr).reasons).Pairwise
            (fun a b => b.1 ≤ a.1) ∧
        down.reasons.length ≤ cfg.max_reasons) ∧
    (∀ item,
      _score_monthly_candidate cfg mrows as_of_month = some (Except.ok item) →
      ∃ box,
        _detect_body_box cfg (_normalize_monthly_rows mrows as_of_month) =
          some (some box) ∧
        item.reasons = ((sortByQKeyDesc (fun p => p.1) (mReasons cfg box)).take
          cfg.max_reasons).map Prod.snd ∧
        (sortByQKeyDesc (fun p => p.1) (mReasons cfg box)).Pairwise
          (fun a b => b.1 ≤ a.1) ∧
        item.reasons.length ≤ cfg.max_reasons) := by
  constructor
  · intro up down h
    rw [_score_weekly_candidate] at h
    split at h
    · exact absurd h (by simp)
    · cases hc : closeW rows as_of with
      | none =>
        rw [hc] at h
        exact absurd h (by simp)
      | some c =>
        rw [hc] at h
        cases h20 : ma20W rows as_of with
        | none =>
          rw [h20] at h
          exact absurd h (by simp)
        | some m20 =>
          rw [h20] at h
          cases h60 : ma60W rows as_of with
          | none =>
            rw [h60] at h
            exact absurd h (by simp)
          | some m60 =>
            rw [h60] at h
            cases hatr : atr14W cfg rows as_of with
            | none =>
              rw [hatr] at h
              exact absurd h (by simp)
            | some atr =>
              rw [hatr] at h
              simp only [Option.some.injEq, Except.ok.injEq, Prod.mk.injEq] at h
              obtain ⟨h1, h2⟩ := h
              refine ⟨c, m20, m60, atr, rfl, rfl, rfl, rfl, ?_, ?_, ?_, ?_, ?_, ?_⟩
              · rw [← h1]
                rfl
              · exact pairwise_sortByQKeyDesc _ _
              · rw [← h1]
                exact take_map_len _ _ _
              · rw [← h2]
                rfl
              · exact pairwise_sortByQKeyDesc _ _
              · rw [← h2]
                exact take_map_len _ _ _
  · intro item h
    rw [_score_monthly_candidate] at h
    split at h
    · exact absurd h (by simp)
    · cases hb : _detect_body_box cfg (_normalize_monthly_rows mrows as_of_month) with
      | none =>
        rw [hb] at h
        exact absurd h (by simp)
      | some inner =>
        rw [hb] at h
        cases inner with
        | none => exact absurd h (by simp)
        | some box =>
          simp only [Option.some.injEq, Except.ok.injEq] at h
          refine ⟨box, rfl, ?_, pairwise_sortByQKeyDesc _ _, ?_⟩
          · rw [← h]
          · rw [← h]
            exact take_map_len _ _ _

/-- 60 flat daily rows (descending dates, volume NULL) reaching the
weekly scorer's ok path. -/
def demoWRows : List WRow :=
  [   ⟨59, 1, 1, 1, 1, none⟩,
   ⟨58, 1, 1, 1, 1, none⟩,
   ⟨57, 1, 1, 1, 1, none⟩,
   ⟨56, 1, 1, 1, 1, none⟩,
   ⟨55, 1, 1, 1, 1, none⟩,
   ⟨54, 1, 1, 1, 1, none⟩,
   ⟨53, 1, 1, 1, 1, none⟩,
   ⟨52, 1, 1, 1, 1, none⟩,
   ⟨51, 1, 1, 1, 1, none⟩,
   ⟨50, 1, 1, 1, 1, none⟩,
   ⟨49, 1, 1, 1, 1, none⟩,
   ⟨48, 1, 1, 1, 1, none⟩,
   ⟨47, 1, 1, 1, 1, none⟩,
   ⟨46, 1, 1, 1, 1, none⟩,
   ⟨45, 1, 1, 1, 1, none⟩,
   ⟨44, 1, 1, 1, 1, none⟩,
   ⟨43, 1, 1, 1, 1, none⟩,
   ⟨42, 1, 1, 1, 1, none⟩,
   ⟨41, 1, 1, 1, 1, none⟩,
   ⟨40, 1, 1, 1, 1, none⟩,
   ⟨39, 1, 1, 1, 1, none⟩,
   ⟨38, 1, 1, 1, 1, none⟩,
   ⟨37, 1, 1, 1, 1, none⟩,
   ⟨36, 1, 1, 1, 1, none⟩,
   ⟨35, 1, 1, 1, 1, none⟩,
   ⟨34, 1, 1, 1, 1, none⟩,
   ⟨33, 1, 1, 1, 1, none⟩,
   ⟨32, 1, 1, 1, 1, none⟩,
   ⟨31, 1, 1, 1, 1, none⟩,
   ⟨30, 1, 1, 1, 1, none⟩,
   ⟨29, 1, 1, 1, 1, none⟩,
   ⟨28, 1, 1, 1, 1, none⟩,
   ⟨27, 1, 1, 1, 1, none⟩,
   ⟨26, 1, 1, 1, 1, none⟩,
   ⟨25, 1, 1, 1, 1, none⟩,
   ⟨24, 1, 1, 1, 1, none⟩,
   ⟨23, 1, 1, 1, 1, none⟩,
   ⟨22, 1, 1, 1, 1, none⟩,
   ⟨21, 1, 1, 1, 1, none⟩,
   ⟨20, 1, 1, 1, 1, none⟩,
   ⟨19, 1, 1, 1, 1, none⟩,
   ⟨18, 1, 1, 1, 1, none⟩,
   ⟨17, 1, 1, 1, 1, none⟩,
   ⟨16, 1, 1, 1, 1, none⟩,
   ⟨15, 1, 1, 1, 1, none⟩,
   ⟨14, 1, 1, 1, 1, none⟩,
   ⟨13, 1, 1, 1, 1, none⟩,
   ⟨12, 1, 1, 1, 1, none⟩,
   ⟨11, 1, 1, 1, 1, none⟩,
   ⟨10, 1, 1, 1, 1, none⟩,
   ⟨9, 1, 1, 1, 1, none⟩,
   ⟨8, 1, 1, 1, 1, none⟩,
   ⟨7, 1, 1, 1, 1, none⟩,
   ⟨6, 1, 1, 1, 1, none⟩,
   ⟨5, 1, 1, 1, 1, none⟩,
   ⟨4, 1, 1, 1, 1, none⟩,
   ⟨3, 1, 1, 1, 1, none⟩,
   ⟨2, 1, 1, 1, 1, none⟩,
   ⟨1, 1, 1, 1, 1, none⟩,
   ⟨0, 1, 1, 1, 1, none⟩]

/-- Three flat monthly rows reaching the monthly scorer's ok path. -/
def demoMRows : List Ingest.MRow :=
  [⟨1, some 10, some 10, some 10, some 10⟩, ⟨2, some 10, some 10, some 10, some 10⟩,
   ⟨3, some 10, some 10, some 10, some 10⟩]

/-- A concrete configuration: zero weights and thresholds, the structural
periods at workable values. -/
def demoCfg : RankConfig :=
  { min_daily_bars := 0
    slope_lookback := 3
    atr_period := 14
    volume_period := 20
    include_latest := false
    trigger_lookback := 20
    max_reasons := 6
    w_ma_alignment := 0
    w_pullback_above_ma20 := 0
    w_volume_spike := 0
    w_near_high_break := 0
    w_slope_up := 0
    w_big_bull_candle := 0
    w_ma20_support := 0
    t_pullback_down7_min := 0
    t_pullback_down7_max := 0
    t_slope_min := 0
    t_volume_ratio := 0
    t_near_break_pct := 0
    t_big_candle_atr := 0
    t_ma20_distance_pct := 0
    d_ma_alignment := 0
    d_pullback_below_ma20 := 0
    d_volume_spike := 0
    d_near_low_break := 0
    d_slope_down := 0
    d_big_bear_candle := 0
    d_ma20_resistance := 0
    dt_pullback_up7_min := 0
    dt_pullback_up7_max := 0
    dt_slope_max := 0
    dt_volume_ratio := 0
    dt_near_break_pct := 0
    dt_big_candle_atr := 0
    dt_ma20_distance_pct := 0
    m_min_months := 3
    m_max_months := 14
    m_max_range_pct := 1/5
    m_wild_wick_pct := 1/10
    m_near_edge_pct := 0
    m_box_months := 0
    m_near_edge := 0
    m_wild_penalty := 0 }

set_option maxRecDepth 16384 in
/-- The demo weekly rows in date order. -/
theorem lem_w_nrows : nrowsOf demoWRows none =
    [   ⟨0, 1, 1, 1, 1, none⟩,
   ⟨1, 1, 1, 1, 1, none⟩,
   ⟨2, 1, 1, 1, 1, none⟩,
   ⟨3, 1, 1, 1, 1, none⟩,
   ⟨4, 1, 1, 1, 1, none⟩,
   ⟨5, 1, 1, 1, 1, none⟩,
   ⟨6, 1, 1, 1, 1, none⟩,
   ⟨7, 1, 1, 1, 1, none⟩,
   ⟨8, 1, 1, 1, 1, none⟩,
   ⟨9, 1, 1, 1, 1, none⟩,
   ⟨10, 1, 1, 1, 1, none⟩,
   ⟨11, 1, 1, 1, 1, none⟩,
   ⟨12, 1, 1, 1, 1, none⟩,
   ⟨13, 1, 1, 1, 1, none⟩,
   ⟨14, 1, 1, 1, 1, none⟩,
   ⟨15, 1, 1, 1, 1, none⟩,
   ⟨16, 1, 1, 1, 1, none⟩,
   ⟨17, 1, 1, 1, 1, none⟩,
   ⟨18, 1, 1, 1, 1, none⟩,
   ⟨19, 1, 1, 1, 1, none⟩,
   ⟨20, 1, 1, 1, 1, none⟩,
   ⟨21, 1, 1, 1, 1, none⟩,
   ⟨22, 1, 1, 1, 1, none⟩,
   ⟨23, 1, 1, 1, 1, none⟩,
   ⟨24, 1, 1, 1, 1, none⟩,
   ⟨25, 1, 1, 1, 1, none⟩,
   ⟨26, 1, 1, 1, 1, none⟩,
   ⟨27, 1, 1, 1, 1, none⟩,
   ⟨28, 1, 1, 1, 1, none⟩,
   ⟨29, 1, 1, 1, 1, none⟩,
   ⟨30, 1, 1, 1, 1, none⟩,
   ⟨31, 1, 1, 1, 1, none⟩,
   ⟨32, 1, 1, 1, 1, none⟩,
   ⟨33, 1, 1, 1, 1, none⟩,
   ⟨34, 1, 1, 1, 1, none⟩,
   ⟨35, 1, 1, 1, 1, none⟩,
   ⟨36, 1, 1, 1, 1, none⟩,
   ⟨37, 1, 1, 1, 1, none⟩,
   ⟨38, 1, 1, 1, 1, none⟩,
   ⟨39, 1, 1, 1, 1, none⟩,
   ⟨40, 1, 1, 1, 1, none⟩,
   ⟨41, 1, 1, 1, 1, none⟩,
   ⟨42, 1, 1, 1, 1, none⟩,
   ⟨43, 1, 1, 1, 1, none⟩,
   ⟨44, 1, 1, 1, 1, none⟩,
   ⟨45, 1, 1, 1, 1, none⟩,
   ⟨46, 1, 1, 1, 1, none⟩,
   ⟨47, 1, 1, 1, 1, none⟩,
   ⟨48, 1, 1, 1, 1, none⟩,
   ⟨49, 1, 1, 1, 1, none⟩,
   ⟨50, 1, 1, 1, 1, none⟩,
   ⟨51, 1, 1, 1, 1, none⟩,
   ⟨52, 1, 1, 1, 1, none⟩,
   ⟨53, 1, 1, 1, 1, none⟩,
   ⟨54, 1, 1, 1, 1, none⟩,
   ⟨55, 1, 1, 1, 1, none⟩,
   ⟨56, 1, 1, 1, 1, none⟩,
   ⟨57, 1, 1, 1, 1, none⟩,
   ⟨58, 1, 1, 1, 1, none⟩,
   ⟨59, 1, 1, 1, 1, none⟩] := by
  norm_num [nrowsOf, _normalize_daily_rows, keepLastByKey, sortByKey, insertByKey,
    demoWRows, List.filter]

/-- The demo weekly closes. -/
theorem lem_w_closes : closesW demoWRows none = [1, 1, 1, 1, 1, 1, 1, 1, 1, 1, 1, 1, 1, 1, 1, 1, 1, 1, 1, 1, 1, 1, 1, 1, 1, 1, 1, 1, 1, 1, 1, 1, 1, 1, 1, 1, 1, 1, 1, 1, 1, 1, 1, 1, 1, 1, 1, 1, 1, 1, 1, 1, 1, 1, 1, 1, 1, 1, 1, 1] := by
  rw [closesW, lem_w_nrows]
  norm_num

/-- The demo weekly opens. -/
theorem lem_w_opens : opensW demoWRows none = [1, 1, 1, 1, 1, 1, 1, 1, 1, 1, 1, 1, 1, 1, 1, 1, 1, 1, 1, 1, 1, 1, 1, 1, 1, 1, 1, 1, 1, 1, 1, 1, 1, 1, 1, 1, 1, 1, 1, 1, 1, 1, 1, 1, 1, 1, 1, 1, 1, 1, 1, 1, 1, 1, 1, 1, 1, 1, 1, 1] := by
  rw [opensW, lem_w_nrows]
  norm_num

/-- The demo weekly highs. -/
theorem lem_w_highs : highsW demoWRows none = [1, 1, 1, 1, 1, 1, 1, 1, 1, 1, 1, 1, 1, 1, 1, 1, 1, 1, 1, 1, 1, 1, 1, 1, 1, 1, 1, 1, 1, 1, 1, 1, 1, 1, 1, 1, 1, 1, 1, 1, 1, 1, 1, 1, 1, 1, 1, 1, 1, 1, 1, 1, 1, 1, 1, 1, 1, 1, 1, 1] := by
  rw [highsW, lem_w_nrows]
  norm_num

/-- The demo weekly lows. -/
theorem lem_w_lows : lowsW demoWRows none = [1, 1, 1, 1, 1, 1, 1, 1, 1, 1, 1, 1, 1, 1, 1, 1, 1, 1, 1, 1, 1, 1, 1, 1, 1, 1, 1, 1, 1, 1, 1, 1, 1, 1, 1, 1, 1, 1, 1, 1, 1, 1, 1, 1, 1, 1, 1, 1, 1, 1, 1, 1, 1, 1, 1, 1, 1, 1, 1, 1] := by
  rw [lowsW, lem_w_nrows]
  norm_num

/-- The demo weekly volumes (all NULL, read as 0). -/
theorem lem_w_vols : volumesW demoWRows none = [0, 0, 0, 0, 0, 0, 0, 0, 0, 0, 0, 0, 0, 0, 0, 0, 0, 0, 0, 0, 0, 0, 0, 0, 0, 0, 0, 0, 0, 0, 0, 0, 0, 0, 0, 0, 0, 0, 0, 0, 0, 0, 0, 0, 0, 0, 0, 0, 0, 0, 0, 0, 0, 0, 0, 0, 0, 0, 0, 0] := by
  rw [volumesW, lem_w_nrows]
  norm_num

set_option maxRecDepth 16384 in
/-- The demo weekly MA20 series. -/
theorem lem_w_ma20S : ma20S demoWRows none = [none, none, none, none, none, none, none, none, none, none, none, none, none, none, none, none, none, none, none, some 1, some 1, some 1, some 1, some 1, some 1, some 1, some 1, some 1, some 1, some 1, some 1, some 1, some 1, some 1, some 1, some 1, some 1, some 1, some 1, some 1, some 1, some 1, some 1, some 1, some 1, some 1, some 1, some 1, some 1, some 1, some 1, some 1, some 1, some 1, some 1, some 1, some 1, some 1, some 1, some 1] := by
  rw [ma20S, lem_w_closes, _build_ma_series, if_neg (by norm_num)]
  norm_num [maGoAux, List.getD, show (20 : ℤ).toNat = 20 from rfl]

set_option maxRecDepth 16384 in
/-- The demo weekly MA60 series. -/
theorem lem_w_ma60S : ma60S demoWRows none = [none, none, none, none, none, none, none, none, none, none, none, none, none, none, none, none, none, none, none, none, none, none, none, none, none, none, none, none, none, none, none, none, none, none, none, none, none, none, none, none, none, none, none, none, none, none, none, none, none, none, none, none, none, none, none, none, none, none, none, some 1] := by
  rw [ma60S, lem_w_closes, _build_ma_series, if_neg (by norm_num)]
  norm_num [maGoAux, List.getD, show (60 : ℤ).toNat = 60 from rfl]

/-- The demo weekly last close. -/
theorem lem_w_close : closeW demoWRows none = some 1 := by
  rw [closeW, lem_w_closes]
  norm_num [List.getLast?]

/-- The demo weekly MA20. -/
theorem lem_w_ma20 : ma20W demoWRows none = some 1 := by
  rw [ma20W, lem_w_ma20S]
  norm_num [Ingest.atFromEnd, List.get?]

/-- The demo weekly MA60. -/
theorem lem_w_ma60 : ma60W demoWRows none = some 1 := by
  rw [ma60W, lem_w_ma60S]
  norm_num [Ingest.atFromEnd, List.get?]

/-- The demo weekly MA20 slope. -/
theorem lem_w_slope : slope20W demoCfg demoWRows none = some 0 := by
  rw [slope20W, lem_w_ma20S]
  norm_num [_calc_slope, List.get?, demoCfg]

set_option maxRecDepth 16384 in
/-- The demo weekly ATR (flat bars, true range 0). -/
theorem lem_w_atr : atr14W demoCfg demoWRows none = some (some 0) := by
  rw [atr14W, lem_w_highs, lem_w_lows, lem_w_closes]
  norm_num [_compute_atr, trsGo, demoCfg, abs]

/-- The demo weekly volume ratio (all-zero volumes: no ratio). -/
theorem lem_w_vr : volRatioW demoCfg demoWRows none = none := by
  rw [volRatioW, lem_w_vols]
  norm_num [_compute_volume_ratio, volRatioCore, demoCfg]

set_option maxRecDepth 16384 in
/-- The demo weekly recent high. -/
theorem lem_w_rh : recentHighW demoCfg demoWRows none = some 1 := by
  rw [recentHighW, lem_w_highs, lem_w_lows]
  norm_num [_calc_recent_bounds, listMax, listMin, demoCfg]
  rw [if_neg (List.cons_ne_nil _ _)]

set_option maxRecDepth 16384 in
/-- The demo weekly recent low. -/
theorem lem_w_rl : recentLowW demoCfg demoWRows none = some 1 := by
  rw [recentLowW, lem_w_highs, lem_w_lows]
  norm_num [_calc_recent_bounds, listMax, listMin, demoCfg]
  rw [if_neg (List.cons_ne_nil _ _)]

/-- The demo weekly upward break distance. -/
theorem lem_w_bup : breakUpPctW demoCfg demoWRows none 1 = some 0 := by
  rw [breakUpPctW, lem_w_rh]
  norm_num

/-- The demo weekly downward break distance. -/
theorem lem_w_bdown : breakDownPctW demoCfg demoWRows none 1 = some 0 := by
  rw [breakDownPctW, lem_w_rl]
  norm_num

/-- The demo weekly last open. -/
theorem lem_w_open : openLastW demoWRows none = 1 := by
  rw [openLastW, lem_w_opens]
  norm_num [List.getLastD]

set_option maxRecDepth 16384 in
/-- The weekly scorer reaches the ok path on the demo input. -/
theorem lem_w_score : _score_weekly_candidate demoCfg demoWRows none =
    some (Except.ok
      (⟨0, [], [RBadge.nearHigh, RBadge.maUp, RBadge.ma20Close]⟩,
       ⟨0, [], [RBadge.nearLow, RBadge.maDown, RBadge.ma20Close]⟩)) := by
  rw [_score_weekly_candidate, lem_w_nrows, lem_w_close, lem_w_ma20, lem_w_ma60,
    lem_w_atr]
  norm_num [upAccOf, downAccOf, addSignal, pushReason, pushBadge,
    upFire1, upFire2, upFire3, upFire4, upFire5, upFire6, upFire7,
    downFire1, downFire2, downFire3, downFire4, downFire5, downFire6, downFire7,
    lem_w_slope, lem_w_vr, lem_w_bup, lem_w_bdown, lem_w_open,
    itemOfAcc, sortByQKeyDesc, insertByQKeyDesc, round3, round_zero,
    List.take, abs, Option.some_ne_none,
    show demoCfg.min_daily_bars = 0 from rfl,
    show demoCfg.max_reasons = 6 from rfl,
    show demoCfg.w_ma_alignment = 0 from rfl,
    show demoCfg.w_pullback_above_ma20 = 0 from rfl,
    show demoCfg.w_volume_spike = 0 from rfl,
    show demoCfg.w_near_high_break = 0 from rfl,
    show demoCfg.w_slope_up = 0 from rfl,
    show demoCfg.w_big_bull_candle = 0 from rfl,
    show demoCfg.w_ma20_support = 0 from rfl,
    show demoCfg.t_slope_min = 0 from rfl,
    show demoCfg.t_near_break_pct = 0 from rfl,
    show demoCfg.t_big_candle_atr = 0 from rfl,
    show demoCfg.t_ma20_distance_pct = 0 from rfl,
    show demoCfg.d_ma_alignment = 0 from rfl,
    show demoCfg.d_pullback_below_ma20 = 0 from rfl,
    show demoCfg.d_volume_spike = 0 from rfl,
    show demoCfg.d_near_low_break = 0 from rfl,
    show demoCfg.d_slope_down = 0 from rfl,
    show demoCfg.d_big_bear_candle = 0 from rfl,
    show demoCfg.d_ma20_resistance = 0 from rfl,
    show demoCfg.dt_slope_max = 0 from rfl,
    show demoCfg.dt_near_break_pct = 0 from rfl,
    show demoCfg.dt_big_candle_atr = 0 from rfl,
    show demoCfg.dt_ma20_distance_pct = 0 from rfl]

/-- The monthly scorer reaches the ok path on the demo input. -/
theorem lem_m_score : _score_monthly_candidate demoCfg demoMRows none =
    some (Except.ok ⟨0, [RLabel.nearEdgeUp 0]⟩) := by
  norm_num [_score_monthly_candidate, _normalize_monthly_rows, keepLastByKey,
    sortByKey, insertByKey, demoMRows, demoCfg, _detect_body_box,
    Ingest.collectBodyBars, Ingest.bodyBarsOf, mBoxGo, mBoxFor, mWild,
    Ingest.suffixWindow, Ingest.suffixUpper, Ingest.suffixLower,
    Ingest.suffixRange, Ingest.defaultBodyBar, listMax, listMin, epsBase,
    mReasons, mScore, mBreakUpPct, mBreakDownPct, mEdgePct, sortByQKeyDesc,
    insertByQKeyDesc, round3, round_zero, List.take, List.filter, abs,
    Option.some_ne_none]

/-- C8 witness: the demo configuration and inputs reach both ok paths, and
the emitted reasons lists are the weight-sorted, truncated projections. -/
theorem claim8_reasons_sorted_witness :
    (∃ c m20 m60 atr,
        closeW demoWRows none = some c ∧
        ma20W demoWRows none = some m20 ∧
        ma60W demoWRows none = some m60 ∧
        atr14W demoCfg demoWRows none = some atr ∧
        (WItem.mk 0 [] [RBadge.nearHigh, RBadge.maUp, RBadge.ma20Close]).reasons =
          ((sortByQKeyDesc (fun p => p.1)
            (upAccOf demoCfg demoWRows none c m20 m60 atr).reasons).take
              demoCfg.max_reasons).map Prod.snd ∧
        (sortByQKeyDesc (fun p => p.1)
          (upAccOf demoCfg demoWRows none c m20 m60 atr).reasons).Pairwise
            (fun a b => b.1 ≤ a.1) ∧
        (WItem.mk 0 [] [RBadge.nearHigh, RBadge.maUp,
          RBadge.ma20Close]).reasons.length ≤ demoCfg.max_reasons ∧
        (WItem.mk 0 [] [RBadge.nearLow, RBadge.maDown, RBadge.ma20Close]).reasons =
          ((sortByQKeyDesc (fun p => p.1)
            (downAccOf demoCfg demoWRows none c m20 m60 atr).reasons).take
              demoCfg.max_reasons).map Prod.snd ∧
        (sortByQKeyDesc (fun p => p.1)
          (downAccOf demoCfg demoWRows none c m20 m60 atr).reasons).Pairwise
            (fun a b => b.1 ≤ a.1) ∧
        (WItem.mk 0 [] [RBadge.nearLow, RBadge.maDown,
          RBadge.ma20Close]).reasons.length ≤ demoCfg.max_reasons) ∧
    (∃ box,
        _detect_body_box demoCfg (_normalize_monthly_rows demoMRows none) =
          some (some box) ∧
        (MItem.mk 0 [RLabel.nearEdgeUp 0]).reasons =
          ((sortByQKeyDesc (fun p => p.1) (mReasons demoCfg box)).take
            demoCfg.max_reasons).map Prod.snd ∧
        (sortByQKeyDesc (fun p => p.1) (mReasons demoCfg box)).Pairwise
          (fun a b => b.1 ≤ a.1) ∧
        (MItem.mk 0 [RLabel.nearEdgeUp 0]).reasons.length ≤ demoCfg.max_reasons) :=
  ⟨(claim8_reasons_sorted demoCfg demoWRows none demoMRows none).1
      ⟨0, [], [RBadge.nearHigh, RBadge.maUp, RBadge.ma20Close]⟩
      ⟨0, [], [RBadge.nearLow, RBadge.maDown, RBadge.ma20Close]⟩ lem_w_score,
   (claim8_reasons_sorted demoCfg demoWRows none demoMRows none).2
      ⟨0, [RLabel.nearEdgeUp 0]⟩ lem_m_score⟩

end Rank
